import Mathlib

/-!
Verification of the concurrency-gate servers and probing client of the
flask-quart-concurrency-compare repository.

The repository exposes a shared "gate" on each of three HTTP servers
(`src/servers/fastapi_server.py`, `src/servers/flask_comparison_server.py`,
`src/servers/quart_comparison_server.py`): block calls register as waiters
and suspend on an event; a release call snapshots the waiter count and round,
opens the event, and optionally re-arms it (closing the event and bumping the
round).  The client (`src/benchmarks/quick_test.py`) ramps concurrency levels
against the gate and runs a fixed-window burst dispatcher.

Durations and timestamps are embedded as rationals (`ℚ`); the waiter counter
is embedded as `Int` so that the never-negative invariant is a genuine
statement; rounds are `Nat`.
-/

/-- The module-level gate state shared by the handlers of one server process:
`concurrency_gate` (the event's set/clear flag), `waiting_requests`, and
`release_round` (fastapi_server.py lines 21-25; identical globals in the flask
and quart servers). -/
structure GateState where
  isOpen : Bool
  waiting_requests : Int
  release_round : Nat
deriving Repr, DecidableEq

/-- Initial gate: event cleared, `waiting_requests = 0`, `release_round = 1`
(fastapi_server.py lines 21-25). -/
def initGate : GateState := ⟨false, 0, 1⟩

/-- A raw numeric query argument as seen by `float(request.args.get(key, default))`:
absent (the default is used), a parsed number, or a string on which `float`
raises `ValueError`. -/
inductive NumArg where
  | absent
  | num (q : ℚ)
  | malformed
deriving Repr, DecidableEq

/-- Result of `float(request.args.get(key, default))`: the default when the
argument is absent, the parsed number, or a `ValueError`. -/
def parseFloat (default : ℚ) : NumArg → Except String ℚ
  | .absent => .ok default
  | .num q => .ok q
  | .malformed => .error "must be a number"

/-- Model of Python's `str.lower` on one character (faithful on the ASCII
query-argument values these servers compare against). -/
def charLower (c : Char) : Char :=
  if c.toNat ≥ 65 ∧ c.toNat ≤ 90 then Char.ofNat (c.toNat + 32) else c

/-- Model of Python's `str.lower` (faithful on ASCII input). -/
def strLower (s : String) : String := ⟨s.data.map charLower⟩

/-- Body of a successful `/concurrency/release` JSON response (the fields the
claims are about; `message` and `timestamp` omitted). -/
structure ReleaseResp where
  round : Nat
  released_waiting : Int
  gate_rearmed : Bool
  rearm_delay : ℚ
deriving Repr, DecidableEq

/-- Body of a successful `/concurrency/block` JSON response (the fields the
claims are about). -/
structure BlockResp where
  round : Nat
  slept_after_release : ℚ
  queued_position : Int
  currently_waiting : Int
deriving Repr, DecidableEq

namespace FastAPISrv

/-! Shallow embedding of the gate sections of `src/servers/fastapi_server.py`.
The sections below are the bodies of the `async with concurrency_lock` blocks
and the re-arm sequence; in the asyncio servers each one runs without an
intervening suspension point, so each is one atomic action of the
interleaving machine further down. -/

/-- Lines 103-106: `waiting_requests += 1; current_round = release_round;
queued_at = waiting_requests` under the lock.  Returns
`(current_round, queued_at)` and the updated state. -/
def blockEnter (g : GateState) : (Nat × Int) × GateState :=
  ((g.release_round, g.waiting_requests + 1),
    { g with waiting_requests := g.waiting_requests + 1 })

/-- Lines 113-115: `waiting_requests -= 1; remaining = waiting_requests` under
the lock.  Returns `remaining` and the updated state. -/
def blockExit (g : GateState) : Int × GateState :=
  (g.waiting_requests - 1, { g with waiting_requests := g.waiting_requests - 1 })

/-- Lines 146-150: `snapshot_waiting = waiting_requests; current_round =
release_round; concurrency_gate.set()` under the lock.  Returns the snapshot
pair and the updated (now open) state. -/
def releaseOpen (g : GateState) : (Int × Nat) × GateState :=
  ((g.waiting_requests, g.release_round), { g with isOpen := true })

/-- Lines 157-159: `concurrency_gate.clear()` followed by
`release_round += 1` under the lock. -/
def releaseRearm (g : GateState) : GateState :=
  { g with isOpen := false, release_round := g.release_round + 1 }

/-- Sequential model of the `concurrency_release` handler body
(lines 145-168).  `reset_gate` and `rearm_delay` arrive already validated by
FastAPI's `Query` declaration (`ge=0.0, le=5.0`); the optional
`asyncio.sleep(rearm_delay)` only consumes time.  Returns the JSON response
fields and the final gate state. -/
def concurrency_release (g : GateState) (reset_gate : Bool) (rearm_delay : ℚ) :
    ReleaseResp × GateState :=
  let snapshot_waiting := g.waiting_requests
  let current_round := g.release_round
  let g1 := { g with isOpen := true }
  let g2 := if reset_gate then
      { g1 with isOpen := false, release_round := g1.release_round + 1 }
    else g1
  ({ round := current_round
     released_waiting := snapshot_waiting
     gate_rearmed := reset_gate
     rearm_delay := if reset_gate then rearm_delay else 0 }, g2)

end FastAPISrv

namespace FlaskSrv

/-! Shallow embedding of `src/servers/flask_comparison_server.py`
(threading.Event / threading.Lock gate). -/

/-- Lines 33-36: `value.lower() in {"1", "true", "t", "yes", "y", "on"}`, with
the default for an absent argument. -/
def _parse_bool_arg (value : Option String) (default : Bool) : Bool :=
  match value with
  | none => default
  | some v => ["1", "true", "t", "yes", "y", "on"].contains (strLower v)

/-- Lines 75-81: parse `delay` (default 1.0), rejecting a `ValueError` or a
value outside `[0.0, 30.0]` with a 400 `{error: ...}` body. -/
def blockValidate (delay : NumArg) : Except String ℚ :=
  match parseFloat 1 delay with
  | .error _ => .error "delay must be a number"
  | .ok d =>
    if d < 0 ∨ d > 30 then .error "delay must be between 0.0 and 30.0"
    else .ok d

/-- Lines 85-88: the `with concurrency_lock` section registering a waiter. -/
def blockEnter (g : GateState) : (Nat × Int) × GateState :=
  ((g.release_round, g.waiting_requests + 1),
    { g with waiting_requests := g.waiting_requests + 1 })

/-- Lines 93-95: the `with concurrency_lock` section deregistering a waiter. -/
def blockExit (g : GateState) : Int × GateState :=
  (g.waiting_requests - 1, { g with waiting_requests := g.waiting_requests - 1 })

/-- Lines 110-147: the whole `concurrency_release` handler: parse
`reset_gate` and `rearm_delay`, reject an invalid `rearm_delay` with a 400
error before touching the gate, otherwise snapshot, open, optionally re-arm,
and build the response. -/
def concurrency_release (g : GateState) (reset_gate_arg : Option String)
    (rearm_arg : NumArg) : Except String ReleaseResp × GateState :=
  let reset_gate := _parse_bool_arg reset_gate_arg true
  match parseFloat 0 rearm_arg with
  | .error _ => (.error "rearm_delay must be a number", g)
  | .ok rearm_delay =>
    if rearm_delay < 0 ∨ rearm_delay > 5 then
      (.error "rearm_delay must be between 0.0 and 5.0", g)
    else
      let snapshot_waiting := g.waiting_requests
      let current_round := g.release_round
      let g1 := { g with isOpen := true }
      let g2 := if reset_gate then
          { g1 with isOpen := false, release_round := g1.release_round + 1 }
        else g1
      (.ok { round := current_round
             released_waiting := snapshot_waiting
             gate_rearmed := reset_gate
             rearm_delay := if reset_gate then rearm_delay else 0 }, g2)

/-- The `concurrency_block` handler through its registering lock section
(lines 69-88): the parse and range checks run before any read or write of the
gate, so a rejected call returns its 400 error with the gate state exactly as
it was. -/
def concurrency_block_start (g : GateState) (delay : NumArg) :
    Except String (ℚ × Nat × Int) × GateState :=
  match blockValidate delay with
  | .error e => (.error e, g)
  | .ok d => (.ok (d, (blockEnter g).1.1, (blockEnter g).1.2), (blockEnter g).2)

end FlaskSrv

namespace QuartSrv

/-! Shallow embedding of `src/servers/quart_comparison_server.py`
(asyncio.Event / asyncio.Lock gate). -/

/-- Lines 35-38: `value.lower() in {"1", "true", "t", "yes", "y", "on"}`, with
the default for an absent argument. -/
def _parse_bool_arg (value : Option String) (default : Bool) : Bool :=
  match value with
  | none => default
  | some v => ["1", "true", "t", "yes", "y", "on"].contains (strLower v)

/-- Lines 93-99: parse `delay` (default 1.0), rejecting a `ValueError` or a
value outside `[0.0, 30.0]` with a 400 `{error: ...}` body. -/
def blockValidate (delay : NumArg) : Except String ℚ :=
  match parseFloat 1 delay with
  | .error _ => .error "delay must be a number"
  | .ok d =>
    if d < 0 ∨ d > 30 then .error "delay must be between 0.0 and 30.0"
    else .ok d

/-- Lines 103-106: the `async with concurrency_lock` section registering a
waiter. -/
def blockEnter (g : GateState) : (Nat × Int) × GateState :=
  let w := g.waiting_requests + 1
  ((g.release_round, w), { g with waiting_requests := w })

/-- Lines 111-113: the `async with concurrency_lock` section deregistering a
waiter. -/
def blockExit (g : GateState) : Int × GateState :=
  let w := g.waiting_requests - 1
  (w, { g with waiting_requests := w })

/-- Lines 128-163: the whole `concurrency_release` handler: parse
`reset_gate` and `rearm_delay`, reject an invalid `rearm_delay` with a 400
error before touching the gate, otherwise snapshot, open, optionally re-arm,
and build the response. -/
def concurrency_release (g : GateState) (reset_gate_arg : Option String)
    (rearm_arg : NumArg) : Except String ReleaseResp × GateState :=
  let reset_gate := _parse_bool_arg reset_gate_arg true
  match parseFloat 0 rearm_arg with
  | .error _ => (.error "rearm_delay must be a number", g)
  | .ok rearm_delay =>
    if rearm_delay < 0 ∨ rearm_delay > 5 then
      (.error "rearm_delay must be between 0.0 and 5.0", g)
    else
      let snapshot_waiting := g.waiting_requests
      let current_round := g.release_round
      let g1 := { g with isOpen := true }
      let g2 := if reset_gate then
          { g1 with isOpen := false, release_round := g1.release_round + 1 }
        else g1
      (.ok { round := current_round
             released_waiting := snapshot_waiting
             gate_rearmed := reset_gate
             rearm_delay := if reset_gate then rearm_delay else 0 }, g2)

/-- The `concurrency_block` handler through its registering lock section
(lines 89-106): the parse and range checks run before any read or write of
the gate, so a rejected call returns its 400 error with the gate state
exactly as it was. -/
def concurrency_block_start (g : GateState) (delay : NumArg) :
    Except String (ℚ × Nat × Int) × GateState :=
  match blockValidate delay with
  | .error e => (.error e, g)
  | .ok d => (.ok (d, (blockEnter g).1.1, (blockEnter g).1.2), (blockEnter g).2)

end QuartSrv

namespace FastAPISrv

/-! Interleaving machine for the asyncio gate.  Each in-flight
`/concurrency/block` task and each `/concurrency/release` task has a program
counter; a step executes one atomic section of one task.  In the asyncio
servers the region from the registering lock section through the check of
`concurrency_gate.wait()` contains no suspension point (the `async with`
exit does not await anything), so registering and deciding whether to wait is
one atomic action; `concurrency_gate.set()` resolves the futures of all
waiters at once, so the open step wakes every current waiter atomically. -/

/-- Program counter of one `/concurrency/block` task: validated and about to
take the lock; registered and suspended on `concurrency_gate.wait()`
(remembering its captured `current_round` and `queued_at`); woken and inside
`asyncio.sleep(delay)`; or finished with its response values. -/
inductive BlockPC where
  | entering
  | waitingGate (round : Nat) (queued_at : Int)
  | holding (round : Nat) (queued_at : Int)
  | finished (round : Nat) (queued_at : Int) (remaining : Int)
deriving Repr, DecidableEq

/-- Program counter of one `/concurrency/release` task: about to take the
lock; past the snapshot-and-set section (remembering `current_round`,
`snapshot_waiting` and its `reset_gate` argument); or finished. -/
inductive RelPC where
  | entering (reset : Bool)
  | opened (round : Nat) (snapshot : Int) (reset : Bool)
  | finished (round : Nat) (snapshot : Int) (reset : Bool)
deriving Repr, DecidableEq

/-- Whether a release task is between its snapshot-and-set section and its
re-arm (or return). -/
def RelPC.isOpened : RelPC → Bool
  | .opened _ _ _ => true
  | _ => false

/-- Whether a release task has not started its body yet. -/
def RelPC.isEntering : RelPC → Bool
  | .entering _ => true
  | _ => false

/-- A system configuration: the shared gate plus the program counters of a
finite set of block tasks and release tasks (task id = list index). -/
structure Sys where
  gate : GateState
  blocks : List BlockPC
  rels : List RelPC
deriving Repr, DecidableEq

/-- Which task takes the step. -/
inductive Label where
  | benter (i : Nat)
  | bfinish (i : Nat)
  | ropen (j : Nat)
  | rrearm (j : Nat)
  | rdone (j : Nat)
deriving Repr, DecidableEq

/-- The effect of `concurrency_gate.set()` on one suspended task: every task
suspended in `concurrency_gate.wait()` has its future resolved and proceeds
to `asyncio.sleep(delay)`. -/
def wake : BlockPC → BlockPC
  | .waitingGate r q => .holding r q
  | pc => pc

/-- One interleaved step of the system. -/
inductive Step : Label → Sys → Sys → Prop where
  | benter (i : Nat) (s : Sys) (h : s.blocks[i]? = some .entering) :
      Step (.benter i) s
        { gate := (blockEnter s.gate).2
          blocks := s.blocks.set i
            (if s.gate.isOpen then
              .holding (blockEnter s.gate).1.1 (blockEnter s.gate).1.2
            else
              .waitingGate (blockEnter s.gate).1.1 (blockEnter s.gate).1.2)
          rels := s.rels }
  | bfinish (i : Nat) (s : Sys) (r : Nat) (q : Int)
      (h : s.blocks[i]? = some (.holding r q)) :
      Step (.bfinish i) s
        { gate := (blockExit s.gate).2
          blocks := s.blocks.set i (.finished r q (blockExit s.gate).1)
          rels := s.rels }
  | ropen (j : Nat) (s : Sys) (reset : Bool)
      (h : s.rels[j]? = some (.entering reset)) :
      Step (.ropen j) s
        { gate := (releaseOpen s.gate).2
          blocks := s.blocks.map wake
          rels := s.rels.set j
            (.opened (releaseOpen s.gate).1.2 (releaseOpen s.gate).1.1 reset) }
  | rrearm (j : Nat) (s : Sys) (r : Nat) (w : Int)
      (h : s.rels[j]? = some (.opened r w true)) :
      Step (.rrearm j) s
        { gate := releaseRearm s.gate
          blocks := s.blocks
          rels := s.rels.set j (.finished r w true) }
  | rdone (j : Nat) (s : Sys) (r : Nat) (w : Int)
      (h : s.rels[j]? = some (.opened r w false)) :
      Step (.rdone j) s
        { gate := s.gate
          blocks := s.blocks
          rels := s.rels.set j (.finished r w false) }

/-- Reflexive-transitive closure of the step relation. -/
def Trace : Sys → Sys → Prop :=
  Relation.ReflTransGen (fun s t => ∃ l, Step l s t)

/-- An initial configuration: the gate as the module initializes it, every
block task validated but not yet registered, every release task not yet
started. -/
def Init (s : Sys) : Prop :=
  s.gate = initGate ∧ (∀ pc ∈ s.blocks, pc = .entering) ∧
    (∀ pc ∈ s.rels, pc.isEntering = true)

/-- Whether a block task currently counts toward `waiting_requests`: it has
run the incrementing section but not yet the decrementing one. -/
def isActive : BlockPC → Bool
  | .waitingGate _ _ => true
  | .holding _ _ => true
  | _ => false

/-- The machine invariant: `waiting_requests` counts exactly the registered,
unfinished block tasks; no task is suspended on the gate while it is open
(`set()` wakes everyone at once and arrivals at an open gate pass through);
the round is at least 1. -/
def Inv (s : Sys) : Prop :=
  s.gate.waiting_requests = (s.blocks.countP isActive : Int) ∧
    (∀ pc ∈ s.blocks, ∀ r q, pc = .waitingGate r q → s.gate.isOpen = false) ∧
    1 ≤ s.gate.release_round

/-- Release bodies do not overlap: at most one release task is between its
snapshot and its re-arm.  Holds e.g. when release calls are issued one at a
time, as the probing client does. -/
def Serial (s : Sys) : Prop :=
  s.rels.countP RelPC.isOpened ≤ 1

/-- Steps restricted to serialized release bodies. -/
def STrace : Sys → Sys → Prop :=
  Relation.ReflTransGen (fun s t => (∃ l, Step l s t) ∧ Serial t)

/-- Strengthening of `Inv` that holds while release bodies are serialized:
additionally, every suspended waiter captured the gate's current round, and a
release task inside its body implies the gate is open. -/
def SerInv (s : Sys) : Prop :=
  Inv s ∧
    (∀ pc ∈ s.blocks, ∀ r q, pc = .waitingGate r q →
      r = s.gate.release_round) ∧
    (∀ (j : Nat) r w b, s.rels[j]? = some (RelPC.opened r w b) →
      s.gate.isOpen = true)

end FastAPISrv

section ListHelpers

variable {α : Type}

/-- Effect of `List.set` on `countP`, stated over `Int` so that no truncated
subtraction appears. -/
theorem countP_set_int (p : α → Bool) (l : List α) (i : Nat) (a b : α)
    (h : l[i]? = some a) :
    ((l.set i b).countP p : Int) =
      (l.countP p : Int) - (if p a then 1 else 0) + (if p b then 1 else 0) := by
  obtain ⟨hlen, hval⟩ := List.getElem?_eq_some_iff.mp h
  have hset := List.countP_set p l i b hlen
  have hpos : p l[i] = true → 1 ≤ l.countP p := fun hpa =>
    List.countP_pos_iff.mpr ⟨l[i], List.getElem_mem hlen, hpa⟩
  rw [hval] at hset hpos
  by_cases hA : p a = true
  · by_cases hB : p b = true
    · rw [if_pos hA, if_pos hB]; rw [if_pos hA, if_pos hB] at hset
      have := hpos hA; omega
    · rw [if_pos hA, if_neg hB]; rw [if_pos hA, if_neg hB] at hset
      have := hpos hA; omega
  · by_cases hB : p b = true
    · rw [if_neg hA, if_pos hB]; rw [if_neg hA, if_pos hB] at hset; omega
    · rw [if_neg hA, if_neg hB]; rw [if_neg hA, if_neg hB] at hset; omega

/-- Two distinct positions holding elements satisfying `p` force
`countP p ≥ 2`. -/
theorem two_le_countP (p : α → Bool) (l : List α) (j k : Nat) (a b : α)
    (hjk : j ≠ k) (hj : l[j]? = some a) (hk : l[k]? = some b)
    (pa : p a = true) (pb : p b = true) : 2 ≤ l.countP p := by
  induction l generalizing j k with
  | nil => simp at hj
  | cons x xs ih =>
    rw [List.countP_cons]
    match j, k with
    | 0, 0 => exact absurd rfl hjk
    | 0, k + 1 =>
      rw [List.getElem?_cons_zero, Option.some_inj] at hj
      rw [List.getElem?_cons_succ] at hk
      have h1 : 1 ≤ xs.countP p :=
        List.countP_pos_iff.mpr ⟨b, List.getElem?_mem hk, pb⟩
      subst hj
      simp only [pa, if_true]
      omega
    | j + 1, 0 =>
      rw [List.getElem?_cons_zero, Option.some_inj] at hk
      rw [List.getElem?_cons_succ] at hj
      have h1 : 1 ≤ xs.countP p :=
        List.countP_pos_iff.mpr ⟨a, List.getElem?_mem hj, pa⟩
      subst hk
      simp only [pb, if_true]
      omega
    | j + 1, k + 1 =>
      rw [List.getElem?_cons_succ] at hj hk
      have := ih j k (fun hh => hjk (by omega)) hj hk
      omega

end ListHelpers

namespace FastAPISrv

/-- Waking the waiters does not change whether a task counts toward
`waiting_requests`. -/
theorem isActive_wake (pc : BlockPC) : isActive (wake pc) = isActive pc := by
  cases pc <;> rfl

/-- An initial configuration satisfies the machine invariant. -/
theorem inv_init {s : Sys} (h : Init s) : Inv s := by
  obtain ⟨hg, hb, _⟩ := h
  refine ⟨?_, ?_, ?_⟩
  · have hz : s.blocks.countP isActive = 0 :=
      List.countP_eq_zero.mpr (fun pc hpc => by rw [hb pc hpc]; simp [isActive])
    rw [hg, hz]; rfl
  · intro pc hpc r q hpc'
    rw [hb pc hpc] at hpc'
    cases hpc'
  · rw [hg]; exact le_refl 1

/-- The composite of `wake` and `isActive` is `isActive` itself. -/
theorem countP_map_wake (bs : List BlockPC) :
    (bs.map wake).countP isActive = bs.countP isActive := by
  rw [List.countP_map, show isActive ∘ wake = isActive from funext isActive_wake]

/-- Every step of the machine preserves the invariant. -/
theorem inv_step {l : Label} {s t : Sys} (hs : Inv s) (h : Step l s t) :
    Inv t := by
  obtain ⟨hcount, hwait, hround⟩ := hs
  cases h with
  | benter i s hb =>
    refine ⟨?_, ?_, hround⟩
    · have hc := countP_set_int isActive s.blocks i BlockPC.entering
        (if s.gate.isOpen then
          BlockPC.holding (blockEnter s.gate).1.1 (blockEnter s.gate).1.2
        else
          BlockPC.waitingGate (blockEnter s.gate).1.1 (blockEnter s.gate).1.2)
        hb
      by_cases hOpen : s.gate.isOpen = true <;>
        simp [hOpen, isActive, blockEnter] at hc ⊢ <;>
        omega
    · intro pc hpc r q hpc'
      rcases List.mem_or_eq_of_mem_set hpc with hmem | hnew
      · exact hwait pc hmem r q hpc'
      · by_cases hOpen : s.gate.isOpen = true
        · rw [hpc'] at hnew
          simp [hOpen] at hnew
        · dsimp only [blockEnter]
          simpa using hOpen
  | bfinish i s r q hb =>
    refine ⟨?_, ?_, hround⟩
    · have hc := countP_set_int isActive s.blocks i (BlockPC.holding r q)
        (BlockPC.finished r q (blockExit s.gate).1) hb
      simp [isActive, blockExit] at hc ⊢
      omega
    · intro pc hpc r' q' hpc'
      rcases List.mem_or_eq_of_mem_set hpc with hmem | hnew
      · exact hwait pc hmem r' q' hpc'
      · rw [hnew] at hpc'
        cases hpc'
  | ropen j s reset hr =>
    refine ⟨?_, ?_, hround⟩
    · dsimp only [releaseOpen]
      rw [countP_map_wake]
      exact hcount
    · intro pc hpc r q hpc'
      obtain ⟨pc0, _, hpc0⟩ := List.mem_map.mp hpc
      rw [← hpc0] at hpc'
      cases pc0 <;> cases hpc'
  | rrearm j s r w hr =>
    refine ⟨?_, ?_, ?_⟩
    · simpa [releaseRearm] using hcount
    · intro pc hpc r' q' hpc'
      rfl
    · simp only [releaseRearm]
      omega
  | rdone j s r w hr =>
    exact ⟨hcount, hwait, hround⟩

/-- The invariant holds in every configuration reachable from an initial
one. -/
theorem inv_trace {s0 s : Sys} (h0 : Init s0) (htr : Trace s0 s) : Inv s := by
  induction htr with
  | refl => exact inv_init h0
  | tail _ hstep ih =>
    obtain ⟨l, hl⟩ := hstep
    exact inv_step ih hl

/-- The round is unchanged by every step except a re-arm, which increments it
by exactly 1. -/
theorem step_round {l : Label} {s t : Sys} (h : Step l s t) :
    (∃ j, l = .rrearm j) ∧
        t.gate.release_round = s.gate.release_round + 1 ∨
      (∀ j, l ≠ .rrearm j) ∧
        t.gate.release_round = s.gate.release_round := by
  cases h with
  | benter i s hb => exact Or.inr ⟨(fun j h => nomatch h), rfl⟩
  | bfinish i s r q hb => exact Or.inr ⟨(fun j h => nomatch h), rfl⟩
  | ropen j s reset hr => exact Or.inr ⟨(fun j h => nomatch h), rfl⟩
  | rrearm j s r w hr => exact Or.inl ⟨⟨j, rfl⟩, rfl⟩
  | rdone j s r w hr => exact Or.inr ⟨(fun j h => nomatch h), rfl⟩

/-- The round never decreases along any trace. -/
theorem trace_round_mono {s t : Sys} (htr : Trace s t) :
    s.gate.release_round ≤ t.gate.release_round := by
  induction htr with
  | refl => exact le_refl _
  | tail _ hstep ih =>
    obtain ⟨l, hl⟩ := hstep
    rcases step_round hl with ⟨_, heq⟩ | ⟨_, heq⟩ <;> omega

/-- The waiter counter is changed only by the two block sections: `+1` on
registration, `-1` on departure; release steps leave it alone. -/
theorem step_waiting {l : Label} {s t : Sys} (h : Step l s t) :
    (∃ i, l = .benter i) ∧
        t.gate.waiting_requests = s.gate.waiting_requests + 1 ∨
      (∃ i, l = .bfinish i) ∧
        t.gate.waiting_requests = s.gate.waiting_requests - 1 ∨
      (∀ i, l ≠ .benter i ∧ l ≠ .bfinish i) ∧
        t.gate.waiting_requests = s.gate.waiting_requests := by
  cases h with
  | benter i s hb => exact Or.inl ⟨⟨i, rfl⟩, rfl⟩
  | bfinish i s r q hb => exact Or.inr (Or.inl ⟨⟨i, rfl⟩, rfl⟩)
  | ropen j s reset hr =>
    exact Or.inr (Or.inr ⟨fun i => ⟨(fun h => nomatch h), (fun h => nomatch h)⟩,
      rfl⟩)
  | rrearm j s r w hr =>
    exact Or.inr (Or.inr ⟨fun i => ⟨(fun h => nomatch h), (fun h => nomatch h)⟩,
      rfl⟩)
  | rdone j s r w hr =>
    exact Or.inr (Or.inr ⟨fun i => ⟨(fun h => nomatch h), (fun h => nomatch h)⟩,
      rfl⟩)

/-- An initial configuration has no release body in flight. -/
theorem serial_init {s : Sys} (h : Init s) : Serial s := by
  obtain ⟨_, _, hr⟩ := h
  have hz : s.rels.countP RelPC.isOpened = 0 :=
    List.countP_eq_zero.mpr (fun pc hpc => by
      have := hr pc hpc
      cases pc <;> simp_all [RelPC.isEntering, RelPC.isOpened])
  rw [Serial, hz]
  omega

/-- An initial configuration satisfies the serialized-release invariant. -/
theorem serInv_init {s : Sys} (h : Init s) : SerInv s := by
  refine ⟨inv_init h, ?_, ?_⟩
  · intro pc hpc r q hpc'
    rw [h.2.1 pc hpc] at hpc'
    cases hpc'
  · intro j r w b hj
    have := h.2.2 _ (List.getElem?_mem hj)
    cases this

/-- Any step whose source configuration has serialized release bodies
preserves the serialized-release invariant. -/
theorem serInv_step {l : Label} {s t : Sys} (hs : SerInv s) (hser : Serial s)
    (h : Step l s t) : SerInv t := by
  obtain ⟨hinv, hcur, hopn⟩ := hs
  refine ⟨inv_step hinv h, ?_, ?_⟩
  · -- every suspended waiter captured the current round
    cases h with
    | benter i s hb =>
      intro pc hpc r q hpc'
      rcases List.mem_or_eq_of_mem_set hpc with hmem | hnew
      · exact hcur pc hmem r q hpc'
      · by_cases hOpen : s.gate.isOpen = true
        · rw [hpc'] at hnew
          simp [hOpen] at hnew
        · rw [hpc'] at hnew
          simp only [hOpen, if_false, Bool.false_eq_true] at hnew
          simp only [blockEnter] at hnew
          cases hnew
          rfl
    | bfinish i s r q hb =>
      intro pc hpc r' q' hpc'
      rcases List.mem_or_eq_of_mem_set hpc with hmem | hnew
      · exact hcur pc hmem r' q' hpc'
      · rw [hnew] at hpc'
        cases hpc'
    | ropen j s reset hr =>
      intro pc hpc r q hpc'
      obtain ⟨pc0, _, hpc0⟩ := List.mem_map.mp hpc
      rw [← hpc0] at hpc'
      cases pc0 <;> cases hpc'
    | rrearm j s r w hr =>
      intro pc hpc r' q' hpc'
      have hOpen : s.gate.isOpen = true := hopn j r w true hr
      have hClosed : s.gate.isOpen = false :=
        hinv.2.1 pc hpc r' q' hpc'
      rw [hOpen] at hClosed
      cases hClosed
    | rdone j s r w hr =>
      intro pc hpc r' q' hpc'
      exact hcur pc hpc r' q' hpc'
  · -- a release body in flight means the gate is open
    cases h with
    | benter i s hb =>
      intro j r w b hj
      dsimp only [blockEnter]
      exact hopn j r w b hj
    | bfinish i s r q hb =>
      intro j r' w b hj
      dsimp only [blockExit]
      exact hopn j r' w b hj
    | ropen j s reset hr =>
      intro k r w b hk
      rfl
    | rrearm j s r w hr =>
      intro k r' w' b hk
      by_cases hkj : j = k
      · subst hkj
        rw [List.getElem?_set, if_pos rfl] at hk
        have hlen : j < s.rels.length :=
          (List.getElem?_eq_some_iff.mp hr).1
        rw [if_pos hlen] at hk
        cases hk
      · rw [List.getElem?_set, if_neg hkj] at hk
        have h2 : 2 ≤ s.rels.countP RelPC.isOpened :=
          two_le_countP RelPC.isOpened s.rels j k _ _ hkj hr hk rfl rfl
        have := hser
        rw [Serial] at this
        omega
    | rdone j s r w hr =>
      intro k r' w' b hk
      by_cases hkj : j = k
      · subst hkj
        rw [List.getElem?_set, if_pos rfl] at hk
        have hlen : j < s.rels.length :=
          (List.getElem?_eq_some_iff.mp hr).1
        rw [if_pos hlen] at hk
        cases hk
      · rw [List.getElem?_set, if_neg hkj] at hk
        exact hopn k r' w' b hk

/-- Along a trace whose release bodies stay serialized, the strengthened
invariant holds in every reachable configuration. -/
theorem sTrace_serInv {s0 s : Sys} (h0 : Init s0) (htr : STrace s0 s) :
    SerInv s ∧ Serial s := by
  induction htr with
  | refl => exact ⟨serInv_init h0, serial_init h0⟩
  | tail _ hstep ih =>
    obtain ⟨⟨l, hl⟩, hsert⟩ := hstep
    exact ⟨serInv_step ih.1 ih.2 hl, hsert⟩

/-- Every step leaves the number of release tasks unchanged. -/
theorem step_rels_length {l : Label} {s t : Sys} (h : Step l s t) :
    t.rels.length = s.rels.length := by
  cases h <;> simp

/-- A system hosting at most one release task is automatically serialized:
every trace from it is a serialized trace. -/
theorem trace_sTrace_of_single_rel {s0 s : Sys} (h1 : s0.rels.length ≤ 1)
    (htr : Trace s0 s) : STrace s0 s ∧ s.rels.length ≤ 1 := by
  induction htr with
  | refl => exact ⟨Relation.ReflTransGen.refl, h1⟩
  | @tail b c hab hstep ih =>
    obtain ⟨l, hl⟩ := hstep
    have hlen := step_rels_length hl
    have h2 := ih.2
    refine ⟨Relation.ReflTransGen.tail ih.1 ⟨⟨l, hl⟩, ?_⟩, by omega⟩
    rw [Serial]
    have hcount := List.countP_le_length RelPC.isOpened (l := c.rels)
    omega

end FastAPISrv

namespace FlaskSrv

/-! Interleaving machine for the threaded Flask gate.  Unlike the asyncio
servers, a Flask worker thread can be preempted at any point outside a lock
section.  In particular `concurrency_gate.wait()` (line 90) runs outside the
registering lock section (lines 85-88), so there is a genuine window between
registering and the flag check inside `threading.Event.wait`; and the
release handler's `concurrency_gate.clear()` (line 134) runs outside the lock
section that increments the round (lines 135-136).  `threading.Event.set()`
notifies every thread already blocked inside `wait`'s condition wait, and
such a thread returns regardless of a later `clear()`; but a thread that has
not yet called `wait()` observes only the flag, so a set-then-clear pair can
pass it by entirely. -/

/-- Program counter of one threaded `/concurrency/block` call: validated and
about to take the lock; past the registering lock section but not yet inside
`concurrency_gate.wait()` (the preemption window); blocked inside the event's
condition wait; woken (or passed an open gate) and inside `time.sleep`; or
finished with its response values. -/
inductive FBlockPC where
  | entering
  | registered (round : Nat) (queued_at : Int)
  | waitingCond (round : Nat) (queued_at : Int)
  | holding (round : Nat) (queued_at : Int)
  | finished (round : Nat) (queued_at : Int) (remaining : Int)
deriving Repr, DecidableEq

/-- Program counter of one threaded `/concurrency/release` call: about to
take the lock; past the snapshot-and-set lock section; past `clear()` but not
yet past the round-incrementing lock section (only with `reset_gate=true`);
or finished. -/
inductive FRelPC where
  | entering (reset : Bool)
  | opened (round : Nat) (snapshot : Int) (reset : Bool)
  | cleared (round : Nat) (snapshot : Int)
  | finished (round : Nat) (snapshot : Int) (reset : Bool)
deriving Repr, DecidableEq

/-- A configuration of the threaded gate: the shared state plus the program
counters of the block and release threads (thread id = list index). -/
structure FSys where
  gate : GateState
  blocks : List FBlockPC
  rels : List FRelPC
deriving Repr, DecidableEq

/-- Which thread takes the step. -/
inductive FLabel where
  | fbenter (i : Nat)
  | fwait (i : Nat)
  | fbfinish (i : Nat)
  | fropen (j : Nat)
  | fclear (j : Nat)
  | fincr (j : Nat)
  | frdone (j : Nat)
deriving Repr, DecidableEq

/-- The effect of `set()`'s `notify_all` on one thread: a thread blocked
inside the condition wait is woken and `Event.wait` returns; any other
thread is untouched — in particular a `registered` thread that has not yet
called `wait()` is not woken. -/
def fwake : FBlockPC → FBlockPC
  | .waitingCond r q => .holding r q
  | pc => pc

/-- One interleaved step of the threaded gate. -/
inductive FStep : FLabel → FSys → FSys → Prop where
  | fbenter (i : Nat) (s : FSys) (h : s.blocks[i]? = some .entering) :
      FStep (.fbenter i) s
        { gate := (blockEnter s.gate).2
          blocks := s.blocks.set i
            (.registered (blockEnter s.gate).1.1 (blockEnter s.gate).1.2)
          rels := s.rels }
  | fwait (i : Nat) (s : FSys) (r : Nat) (q : Int)
      (h : s.blocks[i]? = some (.registered r q)) :
      FStep (.fwait i) s
        { gate := s.gate
          blocks := s.blocks.set i
            (if s.gate.isOpen then .holding r q else .waitingCond r q)
          rels := s.rels }
  | fbfinish (i : Nat) (s : FSys) (r : Nat) (q : Int)
      (h : s.blocks[i]? = some (.holding r q)) :
      FStep (.fbfinish i) s
        { gate := (blockExit s.gate).2
          blocks := s.blocks.set i (.finished r q (blockExit s.gate).1)
          rels := s.rels }
  | fropen (j : Nat) (s : FSys) (reset : Bool)
      (h : s.rels[j]? = some (.entering reset)) :
      FStep (.fropen j) s
        { gate := { s.gate with isOpen := true }
          blocks := s.blocks.map fwake
          rels := s.rels.set j
            (.opened s.gate.release_round s.gate.waiting_requests reset) }
  | fclear (j : Nat) (s : FSys) (r : Nat) (w : Int)
      (h : s.rels[j]? = some (.opened r w true)) :
      FStep (.fclear j) s
        { gate := { s.gate with isOpen := false }
          blocks := s.blocks
          rels := s.rels.set j (.cleared r w) }
  | fincr (j : Nat) (s : FSys) (r : Nat) (w : Int)
      (h : s.rels[j]? = some (.cleared r w)) :
      FStep (.fincr j) s
        { gate := { s.gate with release_round := s.gate.release_round + 1 }
          blocks := s.blocks
          rels := s.rels.set j (.finished r w true) }
  | frdone (j : Nat) (s : FSys) (r : Nat) (w : Int)
      (h : s.rels[j]? = some (.opened r w false)) :
      FStep (.frdone j) s
        { gate := s.gate
          blocks := s.blocks
          rels := s.rels.set j (.finished r w false) }

/-- Reflexive-transitive closure of the threaded step relation. -/
def FTrace : FSys → FSys → Prop :=
  Relation.ReflTransGen (fun s t => ∃ l, FStep l s t)

/-- No block thread is currently in the preemption window between its
registering lock section and its `wait()` call. -/
def NoReg (s : FSys) : Prop :=
  ∀ pc ∈ s.blocks, ∀ r q, pc ≠ FBlockPC.registered r q

/-- Collapse of a threaded block thread's program counter onto the asyncio
machine's: `registered` and `waitingCond` both become a suspended waiter. -/
def absB : FBlockPC → FastAPISrv.BlockPC
  | .entering => .entering
  | .registered r q => .waitingGate r q
  | .waitingCond r q => .waitingGate r q
  | .holding r q => .holding r q
  | .finished r q rem => .finished r q rem

/-- Collapse of a threaded release thread's program counter onto the asyncio
machine's: the intermediate `cleared` phase counts as still inside the
re-arm. -/
def absR : FRelPC → FastAPISrv.RelPC
  | .entering b => .entering b
  | .opened r w b => .opened r w b
  | .cleared r w => .opened r w true
  | .finished r w b => .finished r w b

/-- Collapse of a threaded configuration onto the asyncio machine. -/
def absSys (s : FSys) : FastAPISrv.Sys :=
  ⟨s.gate, s.blocks.map absB, s.rels.map absR⟩

/-- Waking commutes with the collapse on every thread that is not in the
preemption window. -/
theorem absB_fwake {pc : FBlockPC}
    (h : ∀ r q, pc ≠ FBlockPC.registered r q) :
    absB (fwake pc) = FastAPISrv.wake (absB pc) := by
  cases pc with
  | registered r q => exact absurd rfl (h r q)
  | _ => rfl

end FlaskSrv

namespace QuickTest

/-! Shallow embedding of the two probing routines of
`src/benchmarks/quick_test.py`. -/

/-- How one ramp iteration of `probe_concurrency` ended the loop, or that the
`for`/`else` success path was reached. -/
inductive RampOutcome where
  | releaseFailed (level : Nat)
  | blockFailed (level : Nat)
  | success
deriving Repr, DecidableEq

/-- The ramp loop of `probe_concurrency` (quick_test.py lines 60-104):
`for concurrency in range(start, max_concurrency + 1, step)`, breaking when
the release call raises, breaking when any of the level's block futures
returned non-200 or raised, and reaching the `for`/`else` success print
otherwise.  `relFail k` abstracts "the release call at level `k` raised";
`blkFail k` abstracts "some block call at level `k` failed".  `fuel` bounds
the iteration count (`max_concurrency + 1` suffices when `step ≥ 1`).
Returns the loop outcome and the list of attempted levels in order. -/
def probeAux (step : Nat) (relFail blkFail : Nat → Bool) :
    Nat → Nat → Nat → RampOutcome × List Nat
  | 0, _, _ => (.success, [])
  | fuel + 1, k, maxc =>
    if k ≤ maxc then
      if relFail k then (.releaseFailed k, [k])
      else if blkFail k then (.blockFailed k, [k])
      else
        let r := probeAux step relFail blkFail fuel (k + step) maxc
        (r.1, k :: r.2)
    else (.success, [])

/-- The whole `probe_concurrency` ramp with the failure behaviour abstracted
into the two oracles. -/
def probe_concurrency (start step max_concurrency : Nat)
    (relFail blkFail : Nat → Bool) : RampOutcome × List Nat :=
  probeAux step relFail blkFail (max_concurrency + 1) start max_concurrency

/-- The full ramp schedule `range(start, max_concurrency + 1, step)`: the
levels a failure-free run attempts. -/
def rampLevels (start step max_concurrency : Nat) : List Nat :=
  (probe_concurrency start step max_concurrency
    (fun _ => false) (fun _ => false)).2

/-- Line 147 of quick_test.py: `delay = min(max(remaining, 0.1), 10.0)`. -/
def clampDelay (remaining : ℚ) : ℚ := min (max remaining (1 / 10)) 10

/-- The dispatch loop of `probe_sleep_window` (quick_test.py lines 139-150):
at the top of each iteration read the monotonic clock; break once
`elapsed >= target_sleep`; otherwise dispatch one `/slow-io` call whose delay
is the remaining window time clamped to the endpoint's `[0.1, 10.0]` range.
`clocks` is the sequence of `time.monotonic()` readings the loop observes
(blocking on a full worker pool merely advances the clock).  Returns the
delays of the dispatched calls in dispatch order. -/
def probe_sleep_window (start target : ℚ) : List ℚ → List ℚ
  | [] => []
  | now :: rest =>
    if target ≤ now - start then []
    else
      clampDelay ((start + target) - now) ::
        probe_sleep_window start target rest

/-- The levels attempted by any run form a prefix of the failure-free
schedule. -/
theorem probeAux_prefix (step : Nat) (rf bf : Nat → Bool) :
    ∀ (fuel k maxc : Nat), ∃ tail,
      (probeAux step (fun _ => false) (fun _ => false) fuel k maxc).2 =
        (probeAux step rf bf fuel k maxc).2 ++ tail
  | 0, k, maxc => ⟨[], rfl⟩
  | fuel + 1, k, maxc => by
    by_cases hk : k ≤ maxc
    · cases hrf : rf k
      · cases hbf : bf k
        · obtain ⟨tail, ht⟩ := probeAux_prefix step rf bf fuel (k + step) maxc
          exact ⟨tail, by simp [probeAux, hk, hrf, hbf, ht]⟩
        · exact ⟨(probeAux step (fun _ => false) (fun _ => false) fuel
            (k + step) maxc).2, by simp [probeAux, hk, hrf, hbf]⟩
      · exact ⟨(probeAux step (fun _ => false) (fun _ => false) fuel
          (k + step) maxc).2, by simp [probeAux, hk, hrf]⟩
    · exact ⟨[], by simp [probeAux, hk]⟩

/-- Every attempted level lies on the arithmetic schedule and below the
ceiling. -/
theorem probeAux_mem (step : Nat) (rf bf : Nat → Bool) :
    ∀ (fuel k maxc : Nat), ∀ m ∈ (probeAux step rf bf fuel k maxc).2,
      k ≤ m ∧ m ≤ maxc ∧ step ∣ (m - k)
  | 0, k, maxc => by simp [probeAux]
  | fuel + 1, k, maxc => by
    intro m hm
    by_cases hk : k ≤ maxc
    · cases hrf : rf k
      · cases hbf : bf k
        · simp only [probeAux, hk, hrf, hbf, Bool.false_eq_true, if_true,
            if_false, List.mem_cons] at hm
          rcases hm with hm | hm
          · subst hm; exact ⟨le_refl m, hk, ⟨0, by omega⟩⟩
          · obtain ⟨h1, h2, c, hc⟩ :=
              probeAux_mem step rf bf fuel (k + step) maxc m hm
            exact ⟨by omega, h2, c + 1, by rw [Nat.mul_add, Nat.mul_one]; omega⟩
        · simp only [probeAux, hk, hrf, hbf, Bool.false_eq_true, if_true,
            if_false, List.mem_singleton] at hm
          subst hm
          exact ⟨le_refl m, hk, ⟨0, by omega⟩⟩
      · simp only [probeAux, hk, hrf, if_true, List.mem_singleton] at hm
        subst hm
        exact ⟨le_refl m, hk, ⟨0, by omega⟩⟩
    · simp [probeAux, hk] at hm

/-- With a positive step the attempted levels are strictly increasing. -/
theorem probeAux_chain (step : Nat) (hstep : 1 ≤ step) (rf bf : Nat → Bool) :
    ∀ (fuel k maxc : Nat),
      List.Chain' (· < ·) (probeAux step rf bf fuel k maxc).2
  | 0, k, maxc => by simp [probeAux]
  | fuel + 1, k, maxc => by
    by_cases hk : k ≤ maxc
    · cases hrf : rf k
      · cases hbf : bf k
        · simp only [probeAux, hk, hrf, hbf, Bool.false_eq_true, if_true,
            if_false]
          refine List.Chain'.cons' (probeAux_chain step hstep rf bf fuel
            (k + step) maxc) ?_
          intro y hy
          have hmem := probeAux_mem step rf bf fuel (k + step) maxc y
            (List.mem_of_mem_head? hy)
          omega
        · simp [probeAux, hk, hrf, hbf]
      · simp [probeAux, hk, hrf]
    · simp [probeAux, hk]

/-- A `releaseFailed` outcome names a level whose release oracle failed; it is
the last attempted level and every earlier attempted level passed both
oracles. -/
theorem probeAux_releaseFailed (step : Nat) (rf bf : Nat → Bool) :
    ∀ (fuel k maxc m : Nat),
      (probeAux step rf bf fuel k maxc).1 = .releaseFailed m →
      rf m = true ∧ ∃ pre, (probeAux step rf bf fuel k maxc).2 = pre ++ [m] ∧
        ∀ x ∈ pre, rf x = false ∧ bf x = false
  | 0, k, maxc, m => by simp [probeAux]
  | fuel + 1, k, maxc, m => by
    intro hm
    by_cases hk : k ≤ maxc
    · cases hrf : rf k
      · cases hbf : bf k
        · simp only [probeAux, hk, hrf, hbf, Bool.false_eq_true, if_true,
            if_false] at hm ⊢
          obtain ⟨h1, pre, hpre, hpass⟩ :=
            probeAux_releaseFailed step rf bf fuel (k + step) maxc m hm
          refine ⟨h1, k :: pre, by simp [hpre], ?_⟩
          intro x hx
          rcases List.mem_cons.mp hx with hx | hx
          · subst hx; exact ⟨hrf, hbf⟩
          · exact hpass x hx
        · simp only [probeAux, hk, hrf, hbf, Bool.false_eq_true, if_true,
            if_false] at hm
          cases hm
      · simp only [probeAux, hk, hrf, if_true] at hm ⊢
        cases hm
        exact ⟨hrf, [], rfl, by simp⟩
    · simp only [probeAux, hk, if_false] at hm
      cases hm

/-- A `blockFailed` outcome names a level whose block oracle failed while its
release succeeded; it is the last attempted level and every earlier attempted
level passed both oracles. -/
theorem probeAux_blockFailed (step : Nat) (rf bf : Nat → Bool) :
    ∀ (fuel k maxc m : Nat),
      (probeAux step rf bf fuel k maxc).1 = .blockFailed m →
      rf m = false ∧ bf m = true ∧
        ∃ pre, (probeAux step rf bf fuel k maxc).2 = pre ++ [m] ∧
          ∀ x ∈ pre, rf x = false ∧ bf x = false
  | 0, k, maxc, m => by simp [probeAux]
  | fuel + 1, k, maxc, m => by
    intro hm
    by_cases hk : k ≤ maxc
    · cases hrf : rf k
      · cases hbf : bf k
        · simp only [probeAux, hk, hrf, hbf, Bool.false_eq_true, if_true,
            if_false] at hm ⊢
          obtain ⟨h1, h2, pre, hpre, hpass⟩ :=
            probeAux_blockFailed step rf bf fuel (k + step) maxc m hm
          refine ⟨h1, h2, k :: pre, by simp [hpre], ?_⟩
          intro x hx
          rcases List.mem_cons.mp hx with hx | hx
          · subst hx; exact ⟨hrf, hbf⟩
          · exact hpass x hx
        · simp only [probeAux, hk, hrf, hbf, Bool.false_eq_true, if_true,
            if_false] at hm ⊢
          cases hm
          exact ⟨hrf, hbf, [], rfl, by simp⟩
      · simp only [probeAux, hk, hrf, if_true] at hm
        cases hm
    · simp only [probeAux, hk, if_false] at hm
      cases hm

/-- A `success` outcome means every attempted level passed both oracles and
the attempted levels are the whole failure-free schedule. -/
theorem probeAux_success (step : Nat) (rf bf : Nat → Bool) :
    ∀ (fuel k maxc : Nat),
      (probeAux step rf bf fuel k maxc).1 = .success →
      (probeAux step rf bf fuel k maxc).2 =
          (probeAux step (fun _ => false) (fun _ => false) fuel k maxc).2 ∧
        ∀ x ∈ (probeAux step rf bf fuel k maxc).2,
          rf x = false ∧ bf x = false
  | 0, k, maxc => by simp [probeAux]
  | fuel + 1, k, maxc => by
    intro hm
    by_cases hk : k ≤ maxc
    · cases hrf : rf k
      · cases hbf : bf k
        · simp only [probeAux, hk, hrf, hbf, Bool.false_eq_true, if_true,
            if_false] at hm ⊢
          obtain ⟨h1, h2⟩ := probeAux_success step rf bf fuel (k + step) maxc hm
          refine ⟨by simp [h1], ?_⟩
          intro x hx
          rcases List.mem_cons.mp hx with hx | hx
          · subst hx; exact ⟨hrf, hbf⟩
          · exact h2 x hx
        · simp only [probeAux, hk, hrf, hbf, Bool.false_eq_true, if_true,
            if_false] at hm
          cases hm
      · simp only [probeAux, hk, hrf, if_true] at hm
        cases hm
    · simp [probeAux, hk]

/-- Conversely, if every scheduled level passes both oracles the ramp ends in
success. -/
theorem probeAux_success_of_pass (step : Nat) (rf bf : Nat → Bool) :
    ∀ (fuel k maxc : Nat),
      (∀ x ∈ (probeAux step (fun _ => false) (fun _ => false) fuel k maxc).2,
        rf x = false ∧ bf x = false) →
      (probeAux step rf bf fuel k maxc).1 = .success
  | 0, k, maxc => by simp [probeAux]
  | fuel + 1, k, maxc => by
    intro hpass
    by_cases hk : k ≤ maxc
    · have hkmem : k ∈ (probeAux step (fun _ => false) (fun _ => false)
          (fuel + 1) k maxc).2 := by
        simp [probeAux, hk]
      obtain ⟨hrf, hbf⟩ := hpass k hkmem
      simp only [probeAux, hk, hrf, hbf, Bool.false_eq_true, if_true, if_false]
      refine probeAux_success_of_pass step rf bf fuel (k + step) maxc ?_
      intro x hx
      refine hpass x ?_
      simp [probeAux, hk, hx]
    · simp [probeAux, hk]

/-- With enough fuel and a positive step, every point of the arithmetic
progression below the ceiling appears in the failure-free schedule. -/
theorem probeAux_complete (step : Nat) (hstep : 1 ≤ step) :
    ∀ (fuel k maxc : Nat), maxc < k + fuel →
      ∀ i : Nat, k + i * step ≤ maxc →
        k + i * step ∈
          (probeAux step (fun _ => false) (fun _ => false) fuel k maxc).2
  | 0, k, maxc => by omega
  | fuel + 1, k, maxc => by
    intro hfuel i hi
    have hk : k ≤ maxc := by
      have : k ≤ k + i * step := Nat.le_add_right _ _
      omega
    simp only [probeAux, hk, Bool.false_eq_true, if_true, if_false,
      List.mem_cons]
    match i with
    | 0 => left; omega
    | i + 1 =>
      right
      have := probeAux_complete step hstep fuel (k + step) maxc (by omega) i
        (by rw [Nat.add_mul, Nat.one_mul] at hi; omega)
      have harith : k + (i + 1) * step = k + step + i * step := by
        rw [Nat.add_mul, Nat.one_mul]; omega
      rw [harith]
      exact this

/-- The clamp keeps each dispatched delay inside the `/slow-io` endpoint's
accepted `[0.1, 10.0]` range. -/
theorem clampDelay_bounds (r : ℚ) :
    1 / 10 ≤ clampDelay r ∧ clampDelay r ≤ 10 :=
  ⟨le_min (le_max_right _ _) (by norm_num), min_le_right _ _⟩

/-- The dispatch loop emits exactly one clamped delay for each clock reading
strictly inside the window, stopping at the first reading at or past the
deadline. -/
theorem probe_sleep_window_eq (start target : ℚ) :
    ∀ clocks : List ℚ,
      probe_sleep_window start target clocks =
        (clocks.takeWhile (fun now => decide (now - start < target))).map
          (fun now => clampDelay ((start + target) - now))
  | [] => rfl
  | now :: rest => by
    rw [List.takeWhile_cons]
    by_cases h : target ≤ now - start
    · have hd : decide (now - start < target) = false := by
        simp [not_lt.mpr h]
      rw [probe_sleep_window, if_pos h, hd]
      simp
    · have hlt : now - start < target := lt_of_not_le h
      have hd : decide (now - start < target) = true := by simp [hlt]
      rw [probe_sleep_window, if_neg h, hd]
      simp only [if_true, List.map_cons]
      rw [probe_sleep_window_eq start target rest]

end QuickTest

/-- C2: the gate's round counter starts at 1; of all machine steps, exactly
the re-arm step of a release with `reset_gate=true` changes it, incrementing
it by 1; it never decreases along a trace; and after a later re-arming
release it is strictly greater than after an earlier one. -/
theorem c2_round_monotonic :
    initGate.release_round = 1 ∧
    (∀ (l : FastAPISrv.Label) (s t : FastAPISrv.Sys),
      FastAPISrv.Step l s t →
      ((∃ j, l = .rrearm j) ∧
          t.gate.release_round = s.gate.release_round + 1) ∨
        ((∀ j, l ≠ .rrearm j) ∧
          t.gate.release_round = s.gate.release_round)) ∧
    (∀ s t : FastAPISrv.Sys, FastAPISrv.Trace s t →
      s.gate.release_round ≤ t.gate.release_round) ∧
    (∀ (s1 s2 s3 s4 : FastAPISrv.Sys) (j k : Nat),
      FastAPISrv.Step (.rrearm j) s1 s2 → FastAPISrv.Trace s2 s3 →
      FastAPISrv.Step (.rrearm k) s3 s4 →
      s2.gate.release_round < s4.gate.release_round) := by
  refine ⟨rfl, fun l s t h => FastAPISrv.step_round h,
    fun s t h => FastAPISrv.trace_round_mono h,
    fun s1 s2 s3 s4 j k h1 h2 h3 => ?_⟩
  rcases FastAPISrv.step_round h3 with ⟨_, heq⟩ | ⟨hne, _⟩
  · have := FastAPISrv.trace_round_mono h2
    omega
  · exact absurd rfl (hne k)

/-- Witness for C2 at a concrete two-release scenario: after the first re-arm
the round is 2, after the second it is 3. -/
theorem c2_round_monotonic_witness :
    (⟨⟨false, 0, 2⟩, [], [.finished 1 0 true, .opened 1 0 true]⟩ :
        FastAPISrv.Sys).gate.release_round <
      (⟨⟨false, 0, 3⟩, [], [.finished 1 0 true, .finished 1 0 true]⟩ :
        FastAPISrv.Sys).gate.release_round := by
  have h1 : FastAPISrv.Step (.rrearm 0)
      ⟨⟨true, 0, 1⟩, [], [.opened 1 0 true, .opened 1 0 true]⟩
      ⟨⟨false, 0, 2⟩, [], [.finished 1 0 true, .opened 1 0 true]⟩ :=
    FastAPISrv.Step.rrearm 0 _ 1 0 rfl
  have h3 : FastAPISrv.Step (.rrearm 1)
      ⟨⟨false, 0, 2⟩, [], [.finished 1 0 true, .opened 1 0 true]⟩
      ⟨⟨false, 0, 3⟩, [], [.finished 1 0 true, .finished 1 0 true]⟩ :=
    FastAPISrv.Step.rrearm 1 _ 1 0 rfl
  exact c2_round_monotonic.2.2.2 _ _ _ _ 0 1 h1 Relation.ReflTransGen.refl h3

/-- C3: along every trace from an initial configuration the waiter counter is
non-negative and equals the number of block tasks that have registered and
not yet left; only the registering section (+1) and the departing section
(-1) of a block call change it, and release steps leave it unchanged. -/
theorem c3_waiting_count_invariant :
    (∀ s0 s : FastAPISrv.Sys, FastAPISrv.Init s0 → FastAPISrv.Trace s0 s →
      0 ≤ s.gate.waiting_requests ∧
        s.gate.waiting_requests =
          (s.blocks.countP FastAPISrv.isActive : Int)) ∧
    (∀ (l : FastAPISrv.Label) (s t : FastAPISrv.Sys),
      FastAPISrv.Step l s t →
      ((∃ i, l = .benter i) ∧
          t.gate.waiting_requests = s.gate.waiting_requests + 1) ∨
        ((∃ i, l = .bfinish i) ∧
          t.gate.waiting_requests = s.gate.waiting_requests - 1) ∨
        ((∀ i, l ≠ .benter i ∧ l ≠ .bfinish i) ∧
          t.gate.waiting_requests = s.gate.waiting_requests)) := by
  refine ⟨fun s0 s h0 htr => ?_, fun l s t h => FastAPISrv.step_waiting h⟩
  have hinv := FastAPISrv.inv_trace h0 htr
  refine ⟨?_, hinv.1⟩
  rw [hinv.1]
  exact Int.natCast_nonneg _

/-- Witness for C3 at a concrete one-block trace: after registering, the
counter is 1 and equals the one active block task. -/
theorem c3_waiting_count_invariant_witness :
    0 ≤ (⟨⟨false, 1, 1⟩, [.waitingGate 1 1], []⟩ :
        FastAPISrv.Sys).gate.waiting_requests ∧
      (⟨⟨false, 1, 1⟩, [.waitingGate 1 1], []⟩ :
          FastAPISrv.Sys).gate.waiting_requests =
        (([FastAPISrv.BlockPC.waitingGate 1 1].countP
          FastAPISrv.isActive : Nat) : Int) := by
  have hstep : FastAPISrv.Step (.benter 0)
      ⟨initGate, [.entering], []⟩
      ⟨⟨false, 1, 1⟩, [.waitingGate 1 1], []⟩ :=
    FastAPISrv.Step.benter 0 _ rfl
  exact c3_waiting_count_invariant.1 _ _
    ⟨rfl, by decide, by decide⟩
    (Relation.ReflTransGen.single ⟨_, hstep⟩)

/-- C1 (amended): along any trace from an initial configuration in which
release bodies are serialized (no second release runs its snapshot while an
earlier one has not yet re-armed or returned), when a release runs its
snapshot-and-set section it records the current round and waiter count, and
every block call then suspended on the gate captured that same round, is
woken by exactly this step (it moves to its post-release hold, from which its
departing step is enabled), and carries that round unchanged into its
response; a woken task is never re-suspended. -/
theorem c1_release_wave_round_agreement :
    (∀ (s0 s t : FastAPISrv.Sys) (j : Nat), FastAPISrv.Init s0 →
      FastAPISrv.STrace s0 s → FastAPISrv.Step (.ropen j) s t →
      ∃ reset,
        t.rels[j]? = some (.opened s.gate.release_round
          s.gate.waiting_requests reset) ∧
        ∀ (i r : Nat) (q : Int),
          s.blocks[i]? = some (.waitingGate r q) →
          r = s.gate.release_round ∧
          t.blocks[i]? = some (.holding r q) ∧
          ∃ u, FastAPISrv.Step (.bfinish i) t u) ∧
    (∀ (s t : FastAPISrv.Sys) (i r : Nat) (q : Int),
      FastAPISrv.Step (.bfinish i) s t →
      s.blocks[i]? = some (.holding r q) →
      t.blocks[i]? =
        some (.finished r q (s.gate.waiting_requests - 1))) ∧
    (∀ (l : FastAPISrv.Label) (s t : FastAPISrv.Sys) (i r : Nat) (q : Int),
      FastAPISrv.Step l s t →
      s.blocks[i]? = some (.holding r q) →
      t.blocks[i]? = some (.holding r q) ∨
        ∃ rem, t.blocks[i]? = some (.finished r q rem)) := by
  refine ⟨?wave, ?carry, ?stay⟩
  case wave =>
    intro s0 s t j h0 htr hstep
    have hser := (FastAPISrv.sTrace_serInv h0 htr).1
    cases hstep with
    | ropen j s reset hr =>
      refine ⟨reset, ?_, ?_⟩
      · have hlen : j < s.rels.length := (List.getElem?_eq_some_iff.mp hr).1
        show (s.rels.set j _)[j]? = _
        rw [List.getElem?_set, if_pos rfl, if_pos hlen]
        rfl
      · intro i r q hi
        have hr_eq : r = s.gate.release_round :=
          hser.2.1 _ (List.getElem?_mem hi) r q rfl
        have hmap : (s.blocks.map FastAPISrv.wake)[i]? =
            some (.holding r q) := by
          rw [List.getElem?_map, hi]
          rfl
        exact ⟨hr_eq, hmap, ⟨_, FastAPISrv.Step.bfinish i _ r q hmap⟩⟩
  case carry =>
    intro s t i r q hstep hi
    cases hstep with
    | bfinish i s r0 q0 h0 =>
      rw [h0, Option.some_inj] at hi
      cases hi
      have hlen : i < s.blocks.length := (List.getElem?_eq_some_iff.mp h0).1
      show (s.blocks.set i _)[i]? = _
      rw [List.getElem?_set, if_pos rfl, if_pos hlen]
      rfl
  case stay =>
    intro l s t i r q hstep hi
    cases hstep with
    | benter i' s hb =>
      by_cases hii : i' = i
      · subst hii
        rw [hb, Option.some_inj] at hi
        cases hi
      · left
        show (s.blocks.set i' _)[i]? = _
        rw [List.getElem?_set, if_neg hii]
        exact hi
    | bfinish i' s r0 q0 hb =>
      by_cases hii : i' = i
      · subst hii
        rw [hb, Option.some_inj] at hi
        cases hi
        right
        have hlen : i' < s.blocks.length := (List.getElem?_eq_some_iff.mp hb).1
        refine ⟨(FastAPISrv.blockExit s.gate).1, ?_⟩
        show (s.blocks.set i' _)[i']? = _
        rw [List.getElem?_set, if_pos rfl, if_pos hlen]
      · left
        show (s.blocks.set i' _)[i]? = _
        rw [List.getElem?_set, if_neg hii]
        exact hi
    | ropen j s reset hr =>
      left
      show (s.blocks.map FastAPISrv.wake)[i]? = _
      rw [List.getElem?_map, hi]
      rfl
    | rrearm j s r0 w hr =>
      left
      exact hi
    | rdone j s r0 w hr =>
      left
      exact hi

/-- Witness for C1 (amended) at a concrete one-waiter, one-release trace:
the release snapshots round 1 and waiter count 1, and the suspended block
call (which captured round 1) is woken holding round 1. -/
theorem c1_release_wave_round_agreement_witness :
    ∃ (t : FastAPISrv.Sys) (reset : Bool),
      FastAPISrv.Step (.ropen 0)
        ⟨⟨false, 1, 1⟩, [.waitingGate 1 1], [.entering true]⟩ t ∧
      t.rels[0]? = some (.opened 1 1 reset) ∧
      t.blocks[0]? = some (.holding 1 1) := by
  have hstep : FastAPISrv.Step (.ropen 0)
      ⟨⟨false, 1, 1⟩, [.waitingGate 1 1], [.entering true]⟩
      ⟨⟨true, 1, 1⟩, [.holding 1 1], [.opened 1 1 true]⟩ :=
    FastAPISrv.Step.ropen 0 _ true rfl
  have htr : FastAPISrv.STrace
      ⟨initGate, [.entering], [.entering true]⟩
      ⟨⟨false, 1, 1⟩, [.waitingGate 1 1], [.entering true]⟩ :=
    Relation.ReflTransGen.single
      ⟨⟨.benter 0, FastAPISrv.Step.benter 0 _ rfl⟩,
        show List.countP FastAPISrv.RelPC.isOpened
          [FastAPISrv.RelPC.entering true] ≤ 1 by decide⟩
  obtain ⟨reset, h1, h2⟩ := c1_release_wave_round_agreement.1 _ _ _ 0
    ⟨rfl, by decide, by decide⟩ htr hstep
  obtain ⟨_, hh, _⟩ := h2 0 1 1 rfl
  exact ⟨_, reset, hstep, h1, hh⟩

/-- C1 as frozen is false on the code: with two overlapping re-arming
releases, a block call can register between the two re-arms and then be
released by a third release whose reported round (3) differs from the round
in the block call's own response (2).  The trace below is realizable in the
asyncio server with `rearm_delay > 0` on the first two releases. -/
theorem c1_stale_round_counterexample :
    ∃ s0 s5 s6 s7 : FastAPISrv.Sys,
      FastAPISrv.Init s0 ∧ FastAPISrv.Trace s0 s5 ∧
      FastAPISrv.Step (.ropen 2) s5 s6 ∧
      FastAPISrv.Step (.bfinish 0) s6 s7 ∧
      s5.blocks[0]? = some (.waitingGate 2 1) ∧
      s6.rels[2]? = some (.opened 3 1 true) ∧
      s7.blocks[0]? = some (.finished 2 1 0) ∧
      (2 : Nat) ≠ 3 := by
  have st1 : FastAPISrv.Step (.ropen 0)
      ⟨initGate, [.entering], [.entering true, .entering true, .entering true]⟩
      ⟨⟨true, 0, 1⟩, [.entering],
        [.opened 1 0 true, .entering true, .entering true]⟩ :=
    FastAPISrv.Step.ropen 0 _ true rfl
  have st2 : FastAPISrv.Step (.ropen 1)
      ⟨⟨true, 0, 1⟩, [.entering],
        [.opened 1 0 true, .entering true, .entering true]⟩
      ⟨⟨true, 0, 1⟩, [.entering],
        [.opened 1 0 true, .opened 1 0 true, .entering true]⟩ :=
    FastAPISrv.Step.ropen 1 _ true rfl
  have st3 : FastAPISrv.Step (.rrearm 0)
      ⟨⟨true, 0, 1⟩, [.entering],
        [.opened 1 0 true, .opened 1 0 true, .entering true]⟩
      ⟨⟨false, 0, 2⟩, [.entering],
        [.finished 1 0 true, .opened 1 0 true, .entering true]⟩ :=
    FastAPISrv.Step.rrearm 0 _ 1 0 rfl
  have st4 : FastAPISrv.Step (.benter 0)
      ⟨⟨false, 0, 2⟩, [.entering],
        [.finished 1 0 true, .opened 1 0 true, .entering true]⟩
      ⟨⟨false, 1, 2⟩, [.waitingGate 2 1],
        [.finished 1 0 true, .opened 1 0 true, .entering true]⟩ :=
    FastAPISrv.Step.benter 0 _ rfl
  have st5 : FastAPISrv.Step (.rrearm 1)
      ⟨⟨false, 1, 2⟩, [.waitingGate 2 1],
        [.finished 1 0 true, .opened 1 0 true, .entering true]⟩
      ⟨⟨false, 1, 3⟩, [.waitingGate 2 1],
        [.finished 1 0 true, .finished 1 0 true, .entering true]⟩ :=
    FastAPISrv.Step.rrearm 1 _ 1 0 rfl
  have st6 : FastAPISrv.Step (.ropen 2)
      ⟨⟨false, 1, 3⟩, [.waitingGate 2 1],
        [.finished 1 0 true, .finished 1 0 true, .entering true]⟩
      ⟨⟨true, 1, 3⟩, [.holding 2 1],
        [.finished 1 0 true, .finished 1 0 true, .opened 3 1 true]⟩ :=
    FastAPISrv.Step.ropen 2 _ true rfl
  have st7 : FastAPISrv.Step (.bfinish 0)
      ⟨⟨true, 1, 3⟩, [.holding 2 1],
        [.finished 1 0 true, .finished 1 0 true, .opened 3 1 true]⟩
      ⟨⟨true, 0, 3⟩, [.finished 2 1 0],
        [.finished 1 0 true, .finished 1 0 true, .opened 3 1 true]⟩ :=
    FastAPISrv.Step.bfinish 0 _ 2 1 rfl
  refine ⟨⟨initGate, [.entering],
      [.entering true, .entering true, .entering true]⟩,
    _, _, _, ⟨rfl, by decide, by decide⟩, ?_, st6, st7, rfl, rfl,
    rfl, by decide⟩
  exact Relation.ReflTransGen.tail (Relation.ReflTransGen.tail
    (Relation.ReflTransGen.tail (Relation.ReflTransGen.tail
      (Relation.ReflTransGen.single ⟨_, st1⟩) ⟨_, st2⟩) ⟨_, st3⟩) ⟨_, st4⟩)
    ⟨_, st5⟩

/-- C4: a release call finding `waiting_requests = 0` raises no error and
reports `released_waiting = 0`, for every `reset_gate` value and every
`rearm_delay` within `[0.0, 5.0]` (including the absent-argument default). -/
theorem c4_release_no_waiters_noop :
    (∀ (g : GateState) (reset : Bool) (rd : ℚ),
      g.waiting_requests = 0 → 0 ≤ rd → rd ≤ 5 →
      (FastAPISrv.concurrency_release g reset rd).1.released_waiting = 0) ∧
    (∀ (g : GateState) (a : Option String) (rd : ℚ),
      g.waiting_requests = 0 → 0 ≤ rd → rd ≤ 5 →
      ∃ resp, (FlaskSrv.concurrency_release g a (.num rd)).1 = .ok resp ∧
        resp.released_waiting = 0) ∧
    (∀ (g : GateState) (a : Option String),
      g.waiting_requests = 0 →
      ∃ resp, (FlaskSrv.concurrency_release g a .absent).1 = .ok resp ∧
        resp.released_waiting = 0) := by
  refine ⟨fun g reset rd hw h0 h5 => ?_, fun g a rd hw h0 h5 => ?_,
    fun g a hw => ?_⟩
  · simp [FastAPISrv.concurrency_release, hw]
  · have hnor : ¬(rd < 0 ∨ rd > 5) := by push_neg; exact ⟨h0, h5⟩
    refine ⟨{ round := g.release_round
              released_waiting := g.waiting_requests
              gate_rearmed := FlaskSrv._parse_bool_arg a true
              rearm_delay := if FlaskSrv._parse_bool_arg a true then rd
                else 0 }, ?_, hw⟩
    simp [FlaskSrv.concurrency_release, parseFloat, hnor]
  · refine ⟨{ round := g.release_round
              released_waiting := g.waiting_requests
              gate_rearmed := FlaskSrv._parse_bool_arg a true
              rearm_delay := if FlaskSrv._parse_bool_arg a true then (0 : ℚ)
                else 0 }, ?_, hw⟩
    have hnor : ¬((0 : ℚ) < 0 ∨ (0 : ℚ) > 5) := by norm_num
    have h50 : ¬(5 : ℚ) < 0 := by norm_num
    simp [FlaskSrv.concurrency_release, parseFloat, hnor, h50]

/-- Witness for C4 at a concrete empty gate. -/
theorem c4_release_no_waiters_noop_witness :
    (FastAPISrv.concurrency_release ⟨false, 0, 1⟩ true 2).1.released_waiting
        = 0 ∧
      ∃ resp, (FlaskSrv.concurrency_release ⟨false, 0, 1⟩ (some "yes")
          (.num 2)).1 = .ok resp ∧ resp.released_waiting = 0 :=
  ⟨c4_release_no_waiters_noop.1 ⟨false, 0, 1⟩ true 2 rfl (by norm_num)
      (by norm_num),
    c4_release_no_waiters_noop.2.1 ⟨false, 0, 1⟩ (some "yes") 2 rfl
      (by norm_num) (by norm_num)⟩

/-- C8: a block call whose `delay` is non-numeric or outside `[0.0, 30.0]` is
rejected with an `{error: ...}` response, and the gate state in the result is
exactly the input state: `waiting_requests`, `release_round` and the
open/closed flag are untouched. -/
theorem c8_block_validation_rejects_untouched :
    ∀ (g : GateState) (delay : NumArg),
      (delay = .malformed ∨ ∃ d, delay = .num d ∧ (d < 0 ∨ d > 30)) →
      QuartSrv.concurrency_block_start g delay =
          (.error (if delay = .malformed then "delay must be a number"
            else "delay must be between 0.0 and 30.0"), g) ∧
        FlaskSrv.concurrency_block_start g delay =
          (.error (if delay = .malformed then "delay must be a number"
            else "delay must be between 0.0 and 30.0"), g) := by
  intro g delay hbad
  rcases hbad with hm | ⟨d, hd, hrange⟩
  · subst hm
    exact ⟨by simp [QuartSrv.concurrency_block_start, QuartSrv.blockValidate,
        parseFloat],
      by simp [FlaskSrv.concurrency_block_start, FlaskSrv.blockValidate,
        parseFloat]⟩
  · subst hd
    constructor
    · simp [QuartSrv.concurrency_block_start, QuartSrv.blockValidate,
        parseFloat, hrange]
    · simp [FlaskSrv.concurrency_block_start, FlaskSrv.blockValidate,
        parseFloat, hrange]

/-- Witness for C8 at `delay = 31.0` against the initial gate. -/
theorem c8_block_validation_rejects_untouched_witness :
    QuartSrv.concurrency_block_start initGate (.num 31) =
        (.error "delay must be between 0.0 and 30.0", initGate) ∧
      FlaskSrv.concurrency_block_start initGate (.num 31) =
        (.error "delay must be between 0.0 and 30.0", initGate) := by
  have h := c8_block_validation_rejects_untouched initGate (.num 31)
    (Or.inr ⟨31, rfl, Or.inr (by norm_num)⟩)
  simpa using h

/-- C9: within parameter bounds, a release response reports the round and
waiter count snapshotted when the gate was opened (the round before any
re-arm increment), echoes `reset_gate` as `gate_rearmed`, and echoes
`rearm_delay` when re-arming and `0.0` otherwise; with `reset_gate` true the
state's round is incremented only after the snapshot. -/
theorem c9_release_response_fields :
    (∀ (g : GateState) (reset : Bool) (rd : ℚ), 0 ≤ rd → rd ≤ 5 →
      (FastAPISrv.concurrency_release g reset rd).1 =
        { round := g.release_round
          released_waiting := g.waiting_requests
          gate_rearmed := reset
          rearm_delay := if reset then rd else 0 } ∧
      (reset = true →
        (FastAPISrv.concurrency_release g reset rd).2.release_round =
          g.release_round + 1)) ∧
    (∀ (g : GateState) (a : Option String) (rd : ℚ), 0 ≤ rd → rd ≤ 5 →
      (QuartSrv.concurrency_release g a (.num rd)).1 = .ok
        { round := g.release_round
          released_waiting := g.waiting_requests
          gate_rearmed := QuartSrv._parse_bool_arg a true
          rearm_delay := if QuartSrv._parse_bool_arg a true then rd
            else 0 }) := by
  refine ⟨fun g reset rd h0 h5 => ⟨?_, fun hr => ?_⟩,
    fun g a rd h0 h5 => ?_⟩
  · cases reset <;> simp [FastAPISrv.concurrency_release]
  · subst hr
    simp [FastAPISrv.concurrency_release]
  · have hnor : ¬(rd < 0 ∨ rd > 5) := by push_neg; exact ⟨h0, h5⟩
    simp [QuartSrv.concurrency_release, parseFloat, hnor]

/-- Witness for C9 at a concrete gate with three waiters at round 4. -/
theorem c9_release_response_fields_witness :
    (FastAPISrv.concurrency_release ⟨false, 3, 4⟩ true 2).1 =
        { round := 4
          released_waiting := 3
          gate_rearmed := true
          rearm_delay := 2 } ∧
      (FastAPISrv.concurrency_release ⟨false, 3, 4⟩ true 2).2.release_round
        = 5 := by
  have h := c9_release_response_fields.1 ⟨false, 3, 4⟩ true 2 (by norm_num)
    (by norm_num)
  exact ⟨by simpa using h.1, by simpa using h.2 rfl⟩

/-- C10: `reset_gate` parses to true exactly when absent or when its
lowercased value is one of `1, true, t, yes, y, on`; any other string (for
example `2` or `enabled`) silently parses as false, and a release carrying
such a value raises no error, reports `gate_rearmed = false`, and leaves the
gate open with the round unchanged. -/
theorem c10_reset_gate_parsing :
    (∀ v : String, FlaskSrv._parse_bool_arg (some v) true = true ↔
      strLower v ∈ ["1", "true", "t", "yes", "y", "on"]) ∧
    FlaskSrv._parse_bool_arg none true = true ∧
    FlaskSrv._parse_bool_arg (some "2") true = false ∧
    FlaskSrv._parse_bool_arg (some "enabled") true = false ∧
    (∀ (g : GateState) (rd : ℚ), 0 ≤ rd → rd ≤ 5 →
      FlaskSrv.concurrency_release g (some "2") (.num rd) = (.ok
        { round := g.release_round
          released_waiting := g.waiting_requests
          gate_rearmed := false
          rearm_delay := 0 }, { g with isOpen := true })) := by
  refine ⟨fun v => ?_, rfl, by decide, by decide, fun g rd h0 h5 => ?_⟩
  · simp [FlaskSrv._parse_bool_arg, List.elem_iff]
  · have hnor : ¬(rd < 0 ∨ rd > 5) := by push_neg; exact ⟨h0, h5⟩
    have h2 : FlaskSrv._parse_bool_arg (some "2") true = false := by decide
    simp [FlaskSrv.concurrency_release, parseFloat, hnor, h2]

/-- Witness for C10: a release with `reset_gate=2` on the initial gate
succeeds without re-arming and leaves the gate open at round 1. -/
theorem c10_reset_gate_parsing_witness :
    FlaskSrv.concurrency_release initGate (some "2") (.num 1) = (.ok
      { round := 1
        released_waiting := 0
        gate_rearmed := false
        rearm_delay := 0 }, { initGate with isOpen := true }) := by
  have h := c10_reset_gate_parsing.2.2.2.2 initGate 1 (by norm_num)
    (by norm_num)
  simpa using h

/-- C6: the ramp attempts precisely the levels
`start, start + step, start + 2*step, ...` up to the ceiling, in strictly
increasing order; it stops at the first level whose release call or block
calls fail, reporting that level as the last attempted one with all earlier
levels passing; it succeeds exactly when every scheduled level passes.  In
the scenario `start=5, step=20, max=500` with block failures from concurrency
105 upwards, it reports a block failure at 105 after attempting
`5, 25, 45, 65, 85, 105`, and never attempts 125. -/
theorem c6_ramp_first_failure :
    (∀ (start step maxc : Nat) (rf bf : Nat → Bool), 1 ≤ step →
      (∃ tail, QuickTest.rampLevels start step maxc =
        (QuickTest.probe_concurrency start step maxc rf bf).2 ++ tail) ∧
      List.Chain' (· < ·)
        (QuickTest.probe_concurrency start step maxc rf bf).2 ∧
      (∀ m ∈ (QuickTest.probe_concurrency start step maxc rf bf).2,
        start ≤ m ∧ m ≤ maxc ∧ step ∣ (m - start)) ∧
      (∀ i : Nat, start + i * step ≤ maxc →
        start + i * step ∈ QuickTest.rampLevels start step maxc) ∧
      (∀ m, (QuickTest.probe_concurrency start step maxc rf bf).1 =
          .releaseFailed m →
        rf m = true ∧
          ∃ pre, (QuickTest.probe_concurrency start step maxc rf bf).2 =
              pre ++ [m] ∧
            ∀ x ∈ pre, rf x = false ∧ bf x = false) ∧
      (∀ m, (QuickTest.probe_concurrency start step maxc rf bf).1 =
          .blockFailed m →
        rf m = false ∧ bf m = true ∧
          ∃ pre, (QuickTest.probe_concurrency start step maxc rf bf).2 =
              pre ++ [m] ∧
            ∀ x ∈ pre, rf x = false ∧ bf x = false) ∧
      ((QuickTest.probe_concurrency start step maxc rf bf).1 = .success ↔
        ∀ x ∈ QuickTest.rampLevels start step maxc,
          rf x = false ∧ bf x = false)) ∧
    (QuickTest.probe_concurrency 5 20 500 (fun _ => false)
        (fun k => decide (105 ≤ k)) =
      (.blockFailed 105, [5, 25, 45, 65, 85, 105]) ∧
      (125 : Nat) ∉ [5, 25, 45, 65, 85, 105]) := by
  refine ⟨fun start step maxc rf bf hstep => ?_, by decide, by decide⟩
  refine ⟨QuickTest.probeAux_prefix step rf bf (maxc + 1) start maxc,
    QuickTest.probeAux_chain step hstep rf bf (maxc + 1) start maxc,
    QuickTest.probeAux_mem step rf bf (maxc + 1) start maxc,
    fun i hi => QuickTest.probeAux_complete step hstep (maxc + 1) start maxc
      (by omega) i hi,
    fun m => QuickTest.probeAux_releaseFailed step rf bf (maxc + 1) start
      maxc m,
    fun m => QuickTest.probeAux_blockFailed step rf bf (maxc + 1) start
      maxc m,
    ?_, ?_⟩
  · intro hs
    obtain ⟨heq, hpass⟩ :=
      QuickTest.probeAux_success step rf bf (maxc + 1) start maxc hs
    intro x hx
    refine hpass x ?_
    rw [heq]
    exact hx
  · intro hpass
    exact QuickTest.probeAux_success_of_pass step rf bf (maxc + 1) start
      maxc hpass

/-- Witness for C6 at the concrete schedule `start=2, step=3, max=10` with no
failures. -/
theorem c6_ramp_first_failure_witness :
    (∃ tail, QuickTest.rampLevels 2 3 10 =
        (QuickTest.probe_concurrency 2 3 10 (fun _ => false)
          (fun _ => false)).2 ++ tail) ∧
      ((QuickTest.probe_concurrency 2 3 10 (fun _ => false)
          (fun _ => false)).1 = .success ↔
        ∀ x ∈ QuickTest.rampLevels 2 3 10,
          (fun _ : Nat => false) x = false ∧
            (fun _ : Nat => false) x = false) := by
  have h := c6_ramp_first_failure.1 2 3 10 (fun _ => false) (fun _ => false)
    (by norm_num)
  exact ⟨h.1, h.2.2.2.2.2.2⟩

/-- C7: every delay the fixed-window dispatcher emits is the remaining window
time clamped to `[0.1, 10.0]` for a clock reading strictly inside the window;
the loop stops at the first reading at or past the window; and a window whose
first reading is already past the deadline dispatches zero calls. -/
theorem c7_window_dispatch_clamp :
    (∀ (start target : ℚ) (clocks : List ℚ),
      QuickTest.probe_sleep_window start target clocks =
        (clocks.takeWhile (fun now => decide (now - start < target))).map
          (fun now => QuickTest.clampDelay ((start + target) - now))) ∧
    (∀ (start target : ℚ) (clocks : List ℚ) (d : ℚ),
      d ∈ QuickTest.probe_sleep_window start target clocks →
      1 / 10 ≤ d ∧ d ≤ 10 ∧
        ∃ now ∈ clocks, now - start < target ∧
          d = QuickTest.clampDelay ((start + target) - now)) ∧
    (∀ (start target now : ℚ) (rest : List ℚ), target ≤ now - start →
      QuickTest.probe_sleep_window start target (now :: rest) = []) := by
  refine ⟨fun start target clocks =>
      QuickTest.probe_sleep_window_eq start target clocks,
    fun start target clocks d hd => ?_, fun start target now rest h => ?_⟩
  · rw [QuickTest.probe_sleep_window_eq] at hd
    obtain ⟨now, hmem, hval⟩ := List.mem_map.mp hd
    have hpred := List.mem_takeWhile_imp hmem
    have hlt : now - start < target := by simpa using hpred
    have hmem' : now ∈ clocks :=
      List.Sublist.mem hmem (List.takeWhile_sublist _)
    refine ⟨?_, ?_, now, hmem', hlt, hval.symm⟩
    · rw [← hval]
      exact (QuickTest.clampDelay_bounds _).1
    · rw [← hval]
      exact (QuickTest.clampDelay_bounds _).2
  · rw [QuickTest.probe_sleep_window, if_pos h]

/-- Witness for C7 at a window of 3 time units observed at clocks 0, 1 and 5:
two calls are dispatched with delays 3 and 2; a window already elapsed at its
first reading dispatches nothing. -/
theorem c7_window_dispatch_clamp_witness :
    (∃ now ∈ [(0 : ℚ), 1, 5], now - 0 < 3 ∧
      (3 : ℚ) = QuickTest.clampDelay ((0 + 3) - now)) ∧
    QuickTest.probe_sleep_window 0 3 [4, 1] = [] := by
  constructor
  · have h := c7_window_dispatch_clamp.2.1 0 3 [(0 : ℚ), 1, 5] 3 ?_
    · exact h.2.2
    · show (3 : ℚ) ∈ QuickTest.probe_sleep_window 0 3 [0, 1, 5]
      norm_num [QuickTest.probe_sleep_window, QuickTest.clampDelay]
  · exact c7_window_dispatch_clamp.2.2 0 3 4 [1] (by norm_num)

/-- C5 as frozen is false on the code: the threaded Flask gate admits a lost
wakeup that the event-loop gates cannot exhibit.  A block thread registers
(and is counted), is preempted before calling `concurrency_gate.wait()`, the
release then opens, clears and re-arms, and the thread finally suspends on
the cleared event: the system reaches a state in which the only release has
completed — having reported `released_waiting = 1` at round 1 — while the
counted block call is still suspended with captured round 1 and the gate
closed at round 2.  The corresponding configuration of the asyncio machine
is unreachable: there `set()` wakes every registered waiter. -/
theorem c5_lost_wakeup_counterexample :
    (∃ s : FlaskSrv.FSys,
      FlaskSrv.FTrace ⟨initGate, [.entering], [.entering true]⟩ s ∧
        s.gate = ⟨false, 1, 2⟩ ∧
        s.blocks = [.waitingCond 1 1] ∧
        s.rels = [.finished 1 1 true]) ∧
    ¬ ∃ s : FastAPISrv.Sys,
      FastAPISrv.Trace ⟨initGate, [.entering], [.entering true]⟩ s ∧
        s.gate = ⟨false, 1, 2⟩ ∧
        s.blocks = [.waitingGate 1 1] ∧
        s.rels = [.finished 1 1 true] := by
  constructor
  · have f1 : FlaskSrv.FStep (.fbenter 0)
        ⟨initGate, [.entering], [.entering true]⟩
        ⟨⟨false, 1, 1⟩, [.registered 1 1], [.entering true]⟩ :=
      FlaskSrv.FStep.fbenter 0 _ rfl
    have f2 : FlaskSrv.FStep (.fropen 0)
        ⟨⟨false, 1, 1⟩, [.registered 1 1], [.entering true]⟩
        ⟨⟨true, 1, 1⟩, [.registered 1 1], [.opened 1 1 true]⟩ :=
      FlaskSrv.FStep.fropen 0 _ true rfl
    have f3 : FlaskSrv.FStep (.fclear 0)
        ⟨⟨true, 1, 1⟩, [.registered 1 1], [.opened 1 1 true]⟩
        ⟨⟨false, 1, 1⟩, [.registered 1 1], [.cleared 1 1]⟩ :=
      FlaskSrv.FStep.fclear 0 _ 1 1 rfl
    have f4 : FlaskSrv.FStep (.fincr 0)
        ⟨⟨false, 1, 1⟩, [.registered 1 1], [.cleared 1 1]⟩
        ⟨⟨false, 1, 2⟩, [.registered 1 1], [.finished 1 1 true]⟩ :=
      FlaskSrv.FStep.fincr 0 _ 1 1 rfl
    have f5 : FlaskSrv.FStep (.fwait 0)
        ⟨⟨false, 1, 2⟩, [.registered 1 1], [.finished 1 1 true]⟩
        ⟨⟨false, 1, 2⟩, [.waitingCond 1 1], [.finished 1 1 true]⟩ :=
      FlaskSrv.FStep.fwait 0 _ 1 1 rfl
    refine ⟨⟨⟨false, 1, 2⟩, [.waitingCond 1 1], [.finished 1 1 true]⟩,
      ?_, rfl, rfl, rfl⟩
    exact Relation.ReflTransGen.tail (Relation.ReflTransGen.tail
      (Relation.ReflTransGen.tail (Relation.ReflTransGen.tail
        (Relation.ReflTransGen.single ⟨_, f1⟩) ⟨_, f2⟩) ⟨_, f3⟩) ⟨_, f4⟩)
      ⟨_, f5⟩
  · rintro ⟨s, htr, hg, hb, hr⟩
    have hstr := FastAPISrv.trace_sTrace_of_single_rel (by decide) htr
    have hser := (FastAPISrv.sTrace_serInv
      ⟨rfl, by decide, by decide⟩ hstr.1).1
    have hmem : FastAPISrv.BlockPC.waitingGate 1 1 ∈ s.blocks := by
      rw [hb]
      exact List.mem_singleton.mpr rfl
    have h1 : 1 = s.gate.release_round := hser.2.1 _ hmem 1 1 rfl
    rw [hg] at h1
    cases h1

/-- C5 (amended): the threaded Flask gate and the event-loop Quart gate
compute identical results section-for-section (registration, departure,
validation, `reset_gate` parsing, and the whole release handler), and on any
schedule in which each block thread's `wait()` check immediately follows its
registration and each re-arm's round increment immediately follows its
`clear()` — adjacencies that are forced in the asyncio servers, where those
pairs contain no suspension point — every threaded transition corresponds,
under the collapse `absSys`, to the matching asyncio-machine transition, so
such executions produce exactly the asyncio behaviours; moreover the
threaded `set()` is a true broadcast over the threads actually suspended on
the event.  Unrestricted preemption additionally admits the lost wakeup of
the counterexample, so full behavioural equivalence fails. -/
theorem c5_threaded_gate_correspondence :
    (∀ g : GateState, FlaskSrv.blockEnter g = QuartSrv.blockEnter g) ∧
    (∀ g : GateState, FlaskSrv.blockExit g = QuartSrv.blockExit g) ∧
    (∀ d : NumArg, FlaskSrv.blockValidate d = QuartSrv.blockValidate d) ∧
    (∀ (v : Option String) (b : Bool),
      FlaskSrv._parse_bool_arg v b = QuartSrv._parse_bool_arg v b) ∧
    (∀ (g : GateState) (a : Option String) (r : NumArg),
      FlaskSrv.concurrency_release g a r =
        QuartSrv.concurrency_release g a r) ∧
    (∀ (s t1 t2 : FlaskSrv.FSys) (i : Nat),
      FlaskSrv.FStep (.fbenter i) s t1 → FlaskSrv.FStep (.fwait i) t1 t2 →
      FastAPISrv.Step (.benter i) (FlaskSrv.absSys s)
        (FlaskSrv.absSys t2)) ∧
    (∀ (s t : FlaskSrv.FSys) (j : Nat), FlaskSrv.NoReg s →
      FlaskSrv.FStep (.fropen j) s t →
      FastAPISrv.Step (.ropen j) (FlaskSrv.absSys s) (FlaskSrv.absSys t)) ∧
    (∀ (s t1 t2 : FlaskSrv.FSys) (j : Nat),
      FlaskSrv.FStep (.fclear j) s t1 → FlaskSrv.FStep (.fincr j) t1 t2 →
      FastAPISrv.Step (.rrearm j) (FlaskSrv.absSys s)
        (FlaskSrv.absSys t2)) ∧
    (∀ (s t : FlaskSrv.FSys) (j : Nat), FlaskSrv.FStep (.frdone j) s t →
      FastAPISrv.Step (.rdone j) (FlaskSrv.absSys s) (FlaskSrv.absSys t)) ∧
    (∀ (s t : FlaskSrv.FSys) (i : Nat), FlaskSrv.FStep (.fbfinish i) s t →
      FastAPISrv.Step (.bfinish i) (FlaskSrv.absSys s)
        (FlaskSrv.absSys t)) ∧
    (∀ (s t : FlaskSrv.FSys) (j : Nat), FlaskSrv.FStep (.fropen j) s t →
      ∀ (i r : Nat) (q : Int), s.blocks[i]? = some (.waitingCond r q) →
        t.blocks[i]? = some (.holding r q)) := by
  refine ⟨fun _ => rfl, fun _ => rfl, fun _ => rfl, fun _ _ => rfl,
    fun _ _ _ => rfl, ?benter, ?ropen, ?rrearm, ?rdone, ?bfinish, ?bcast⟩
  case benter =>
    intro s t1 t2 i h1 h2
    cases h1 with
    | fbenter i s hb =>
      cases h2 with
      | fwait i t1 r q hreg =>
        have hlen : i < s.blocks.length :=
          (List.getElem?_eq_some_iff.mp hb).1
        rw [List.getElem?_set, if_pos rfl, if_pos hlen,
          Option.some_inj] at hreg
        cases hreg
        have habs : (FlaskSrv.absSys s).blocks[i]? = some .entering := by
          show (s.blocks.map FlaskSrv.absB)[i]? = _
          rw [List.getElem?_map, hb]
          rfl
        have hstep := FastAPISrv.Step.benter i (FlaskSrv.absSys s) habs
        have heq :
            ({ gate := (FastAPISrv.blockEnter (FlaskSrv.absSys s).gate).2
               blocks := (FlaskSrv.absSys s).blocks.set i
                 (if (FlaskSrv.absSys s).gate.isOpen then
                   FastAPISrv.BlockPC.holding
                     (FastAPISrv.blockEnter (FlaskSrv.absSys s).gate).1.1
                     (FastAPISrv.blockEnter (FlaskSrv.absSys s).gate).1.2
                 else
                   FastAPISrv.BlockPC.waitingGate
                     (FastAPISrv.blockEnter (FlaskSrv.absSys s).gate).1.1
                     (FastAPISrv.blockEnter (FlaskSrv.absSys s).gate).1.2)
               rels := (FlaskSrv.absSys s).rels } : FastAPISrv.Sys) =
            FlaskSrv.absSys
              { gate :=
                  { gate := (FlaskSrv.blockEnter s.gate).2
                    blocks := s.blocks.set i
                      (FlaskSrv.FBlockPC.registered
                        (FlaskSrv.blockEnter s.gate).1.1
                        (FlaskSrv.blockEnter s.gate).1.2)
                    rels := s.rels : FlaskSrv.FSys }.gate
                blocks :=
                  (s.blocks.set i
                    (FlaskSrv.FBlockPC.registered
                      (FlaskSrv.blockEnter s.gate).1.1
                      (FlaskSrv.blockEnter s.gate).1.2)).set i
                    (if (FlaskSrv.blockEnter s.gate).2.isOpen then
                      FlaskSrv.FBlockPC.holding
                        (FlaskSrv.blockEnter s.gate).1.1
                        (FlaskSrv.blockEnter s.gate).1.2
                    else
                      FlaskSrv.FBlockPC.waitingCond
                        (FlaskSrv.blockEnter s.gate).1.1
                        (FlaskSrv.blockEnter s.gate).1.2)
                rels := s.rels } := by
          cases hOpen : s.gate.isOpen <;>
            simp [FlaskSrv.absSys, FlaskSrv.blockEnter,
              FastAPISrv.blockEnter, List.map_set, List.set_set, hOpen,
              FlaskSrv.absB]
        exact heq ▸ hstep
  case ropen =>
    intro s t j hnr h
    cases h with
    | fropen j s reset hr =>
      have habs : (FlaskSrv.absSys s).rels[j]? =
          some (.entering reset) := by
        show (s.rels.map FlaskSrv.absR)[j]? = _
        rw [List.getElem?_map, hr]
        rfl
      have hstep := FastAPISrv.Step.ropen j (FlaskSrv.absSys s) reset habs
      have hwake : s.blocks.map (FlaskSrv.absB ∘ FlaskSrv.fwake) =
          s.blocks.map (FastAPISrv.wake ∘ FlaskSrv.absB) :=
        List.map_congr_left (fun pc hpc => FlaskSrv.absB_fwake (hnr pc hpc))
      have heq :
          ({ gate := (FastAPISrv.releaseOpen (FlaskSrv.absSys s).gate).2
             blocks := (FlaskSrv.absSys s).blocks.map FastAPISrv.wake
             rels := (FlaskSrv.absSys s).rels.set j
               (FastAPISrv.RelPC.opened
                 (FastAPISrv.releaseOpen (FlaskSrv.absSys s).gate).1.2
                 (FastAPISrv.releaseOpen (FlaskSrv.absSys s).gate).1.1
                 reset) } : FastAPISrv.Sys) =
          FlaskSrv.absSys
            { gate := { s.gate with isOpen := true }
              blocks := s.blocks.map FlaskSrv.fwake
              rels := s.rels.set j
                (FlaskSrv.FRelPC.opened s.gate.release_round
                  s.gate.waiting_requests reset) } := by
        simp only [FlaskSrv.absSys, FastAPISrv.releaseOpen, List.map_set,
          List.map_map, FlaskSrv.absR, hwake]
      exact heq ▸ hstep
  case rrearm =>
    intro s t1 t2 j h1 h2
    cases h1 with
    | fclear j s r w hr =>
      cases h2 with
      | fincr j t1 r' w' hcl =>
        have hlen : j < s.rels.length :=
          (List.getElem?_eq_some_iff.mp hr).1
        rw [List.getElem?_set, if_pos rfl, if_pos hlen,
          Option.some_inj] at hcl
        cases hcl
        have habs : (FlaskSrv.absSys s).rels[j]? =
            some (.opened r w true) := by
          show (s.rels.map FlaskSrv.absR)[j]? = _
          rw [List.getElem?_map, hr]
          rfl
        have hstep := FastAPISrv.Step.rrearm j (FlaskSrv.absSys s) r w habs
        have heq :
            ({ gate := FastAPISrv.releaseRearm (FlaskSrv.absSys s).gate
               blocks := (FlaskSrv.absSys s).blocks
               rels := (FlaskSrv.absSys s).rels.set j
                 (FastAPISrv.RelPC.finished r w true) } : FastAPISrv.Sys) =
            FlaskSrv.absSys
              { gate :=
                  { ({ s.gate with isOpen := false } : GateState) with
                    release_round :=
                      ({ s.gate with isOpen := false } :
                        GateState).release_round + 1 }
                blocks := s.blocks
                rels := (s.rels.set j (FlaskSrv.FRelPC.cleared r w)).set j
                  (FlaskSrv.FRelPC.finished r w true) } := by
          simp only [FlaskSrv.absSys, FastAPISrv.releaseRearm,
            List.map_set, List.set_set, FlaskSrv.absR]
        exact heq ▸ hstep
  case rdone =>
    intro s t j h
    cases h with
    | frdone j s r w hr =>
      have habs : (FlaskSrv.absSys s).rels[j]? =
          some (.opened r w false) := by
        show (s.rels.map FlaskSrv.absR)[j]? = _
        rw [List.getElem?_map, hr]
        rfl
      have hstep := FastAPISrv.Step.rdone j (FlaskSrv.absSys s) r w habs
      have heq :
          ({ gate := (FlaskSrv.absSys s).gate
             blocks := (FlaskSrv.absSys s).blocks
             rels := (FlaskSrv.absSys s).rels.set j
               (FastAPISrv.RelPC.finished r w false) } : FastAPISrv.Sys) =
          FlaskSrv.absSys
            { gate := s.gate
              blocks := s.blocks
              rels := s.rels.set j (FlaskSrv.FRelPC.finished r w false) } := by
        simp only [FlaskSrv.absSys, List.map_set, FlaskSrv.absR]
      exact heq ▸ hstep
  case bfinish =>
    intro s t i h
    cases h with
    | fbfinish i s r q hb =>
      have habs : (FlaskSrv.absSys s).blocks[i]? =
          some (.holding r q) := by
        show (s.blocks.map FlaskSrv.absB)[i]? = _
        rw [List.getElem?_map, hb]
        rfl
      have hstep := FastAPISrv.Step.bfinish i (FlaskSrv.absSys s) r q habs
      have heq :
          ({ gate := (FastAPISrv.blockExit (FlaskSrv.absSys s).gate).2
             blocks := (FlaskSrv.absSys s).blocks.set i
               (FastAPISrv.BlockPC.finished r q
                 (FastAPISrv.blockExit (FlaskSrv.absSys s).gate).1)
             rels := (FlaskSrv.absSys s).rels } : FastAPISrv.Sys) =
          FlaskSrv.absSys
            { gate := (FlaskSrv.blockExit s.gate).2
              blocks := s.blocks.set i
                (FlaskSrv.FBlockPC.finished r q (FlaskSrv.blockExit s.gate).1)
              rels := s.rels } := by
        simp only [FlaskSrv.absSys, FlaskSrv.blockExit,
          FastAPISrv.blockExit, List.map_set, FlaskSrv.absB]
      exact heq ▸ hstep
  case bcast =>
    intro s t j h i r q hi
    cases h with
    | fropen j s reset hr =>
      show (s.blocks.map FlaskSrv.fwake)[i]? = _
      rw [List.getElem?_map, hi]
      rfl

/-- Witness for C5 (amended) at a concrete register-then-wait pair and a
broadcast over one suspended thread. -/
theorem c5_threaded_gate_correspondence_witness :
    FastAPISrv.Step (.benter 0)
      (FlaskSrv.absSys ⟨initGate, [.entering], []⟩)
      (FlaskSrv.absSys ⟨⟨false, 1, 1⟩, [.waitingCond 1 1], []⟩) ∧
    (⟨⟨true, 1, 1⟩, [.holding 1 1], [.opened 1 1 true]⟩ :
        FlaskSrv.FSys).blocks[0]? = some (.holding 1 1) := by
  have f1 : FlaskSrv.FStep (.fbenter 0) ⟨initGate, [.entering], []⟩
      ⟨⟨false, 1, 1⟩, [.registered 1 1], []⟩ :=
    FlaskSrv.FStep.fbenter 0 _ rfl
  have f2 : FlaskSrv.FStep (.fwait 0)
      ⟨⟨false, 1, 1⟩, [.registered 1 1], []⟩
      ⟨⟨false, 1, 1⟩, [.waitingCond 1 1], []⟩ :=
    FlaskSrv.FStep.fwait 0 _ 1 1 rfl
  have f3 : FlaskSrv.FStep (.fropen 0)
      ⟨⟨false, 1, 1⟩, [.waitingCond 1 1], [.entering true]⟩
      ⟨⟨true, 1, 1⟩, [.holding 1 1], [.opened 1 1 true]⟩ :=
    FlaskSrv.FStep.fropen 0 _ true rfl
  exact ⟨c5_threaded_gate_correspondence.2.2.2.2.2.1 _ _ _ 0 f1 f2,
    c5_threaded_gate_correspondence.2.2.2.2.2.2.2.2.2.2 _ _ 0 f3 0 1 1 rfl⟩
